import Mathlib

/-! # Great-circle distance and intermediate points (`haversine.go`)

Two shallow embeddings of `haversine.go`, and theorems about them.

## `Haversine.Float64`: the program on `float64`

An executable model.  A float is NaN, an infinity, or `±m * 2^-1074` for a
natural number `m`; every arithmetic operation returns the exact result rounded
to nearest, ties to even, one rounding for each operation (no fused
multiply-add, which is what the Go compiler emits on amd64).  `math.Sqrt` is the
correctly rounded square root.  `math.Sin`, `math.Cos`, `math.Atan2` and
`math.Pow(x, 2)` follow the pure Go implementations of the standard library
(`math/sin.go`, `math/trig_reduce.go`, `math/atan.go`, `math/atan2.go`,
`math/pow.go`): the same argument reduction, the same polynomial coefficients,
the same order of operations.  Untyped constant expressions (`4 / Pi`,
`Pi / 2`, `3 * Pi / 4`) are evaluated exactly and rounded once.  What the
program returns at a given input is evaluated in this model.

## `Haversine`: the formulas over the real numbers

The same formulas in exact real arithmetic.  A theorem proved in this model is
a statement about the formulas of the program, not about their `float64`
results; where the two differ beyond rounding (the haversine term rounding above
`1` at antipodal points, the loss of accuracy of the interpolation near the
antipode, the longitude `-180`), the difference is stated by a theorem of
`Haversine.Float64`.

* `math.Sin`, `math.Cos`, `math.Sqrt`, `math.Pi` are `Real.sin`, `Real.cos`,
  `Real.sqrt`, `Real.pi`, and `math.Pow(x, 2)` is `x ^ 2`.
* `math.Atan2` is the two-argument arctangent with values in `(-π, π]`,
  written with the case split of the Go library (`y = 0`, `x = 0`, quadrant of
  `Atan(y / x)`).  The reals have no signed zero, so `atan2 0 x = π` for
  `x < 0`.
* A division whose divisor is a program value (`math.Sin(dBetween)`) is the
  fallible `fdiv`: it has no result when the divisor is `0` (the program gets
  `NaN` or an infinity there).  Divisions by the non-zero constants `180` and
  `math.Pi` are plain divisions.
* `math.Sqrt` is only ever applied to `a`, `1 - a` and `x*x + y*y`; `Real.sqrt`
  is `0` on negative numbers, where `math.Sqrt` is `NaN`.
-/

/-! ## The program on `float64` -/

namespace Haversine

namespace Float64

/-- An IEEE 754 binary64 value.  A finite value is `±m * 2^-1074` for a natural
number `m` with at most 53 significant bits, below `2^2098`; the two zeros are
`fin false 0` and `fin true 0`.  All NaNs are one value. -/
inductive F64 where
  | nan : F64
  | inf (neg : Bool) : F64
  | fin (neg : Bool) (m : Nat) : F64
  deriving DecidableEq

/-- The powers of two `b` with `2^b ≤ n`, largest first (fuel: doublings). -/
def log2Steps (n : Nat) : Nat → Nat → List Nat → List Nat
  | 0, _, acc => acc
  | fuel + 1, b, acc => if 2 ^ b ≤ n then log2Steps n fuel (2 * b) (b :: acc) else acc

/-- Binary search for the largest `k` with `2^k ≤ n` over the steps `bs`. -/
def log2Search (n : Nat) : List Nat → Nat → Nat
  | [], k => k
  | b :: bs, k => log2Search n bs (if 2 ^ (k + b) ≤ n then k + b else k)

/-- The position of the leading bit of `n`: the largest `k` with `2^k ≤ n`
(`0` for `n = 0`). -/
def log2 (n : Nat) : Nat := log2Search n (log2Steps n 64 1 []) 0

/-- The integer nearest to `n / d`, ties to even (`d` positive). -/
def rne (n d : Nat) : Nat :=
  let q := n / d
  let r := n % d
  if 2 * r < d then q
  else if d < 2 * r then q + 1
  else if q % 2 = 0 then q
  else q + 1

/-- Round-to-nearest-even of the exact value `±(n / d) * 2^-1074`. -/
def round (neg : Bool) (n d : Nat) : F64 :=
  let q := n / d
  if q < 2 ^ 53 then F64.fin neg (rne n d)
  else
    let s := log2 q - 52
    let m := rne n (d * 2 ^ s) * 2 ^ s
    if 2 ^ 2098 ≤ m then F64.inf neg else F64.fin neg m

/-- The natural number `n` as a float. -/
def ofNat (n : Nat) : F64 := round false (n * 2 ^ 1074) 1

/-- A decimal literal `mantissa * 10^(±e)`, correctly rounded. -/
def ofScientific (mantissa : Nat) (exponentSign : Bool) (e : Nat) : F64 :=
  if exponentSign then round false (mantissa * 2 ^ 1074) (10 ^ e)
  else round false (mantissa * 10 ^ e * 2 ^ 1074) 1

instance : OfScientific F64 := ⟨ofScientific⟩

instance (n : Nat) : OfNat F64 n := ⟨ofNat n⟩

/-- Negation: the sign bit flipped. -/
def neg : F64 → F64
  | F64.nan => F64.nan
  | F64.inf s => F64.inf (!s)
  | F64.fin s m => F64.fin (!s) m

/-- The function `math.Abs`. -/
def abs : F64 → F64
  | F64.nan => F64.nan
  | F64.inf _ => F64.inf false
  | F64.fin _ m => F64.fin false m

/-- The function `math.IsNaN`. -/
def isNaN : F64 → Bool
  | F64.nan => true
  | _ => false

/-- The function `math.IsInf(x, 0)`. -/
def isInf : F64 → Bool
  | F64.inf _ => true
  | _ => false

/-- The function `math.Signbit`. -/
def signbit : F64 → Bool
  | F64.nan => false
  | F64.inf s => s
  | F64.fin s _ => s

/-- The function `math.Copysign`. -/
def copysign (x y : F64) : F64 :=
  if signbit y then neg (abs x) else abs x

/-- Addition: the exact sum, rounded; `x + (-x)` is `+0`. -/
def add : F64 → F64 → F64
  | F64.nan, _ => F64.nan
  | _, F64.nan => F64.nan
  | F64.inf a, F64.inf b => if a = b then F64.inf a else F64.nan
  | F64.inf a, F64.fin _ _ => F64.inf a
  | F64.fin _ _, F64.inf b => F64.inf b
  | F64.fin a m, F64.fin b n =>
    if a = b then round a (m + n) 1
    else if n < m then round a (m - n) 1
    else if m < n then round b (n - m) 1
    else F64.fin false 0

/-- Subtraction. -/
def sub (x y : F64) : F64 := add x (neg y)

/-- Multiplication: the exact product, rounded. -/
def mul : F64 → F64 → F64
  | F64.nan, _ => F64.nan
  | _, F64.nan => F64.nan
  | F64.inf a, F64.inf b => F64.inf (a != b)
  | F64.inf a, F64.fin b n => if n = 0 then F64.nan else F64.inf (a != b)
  | F64.fin a m, F64.inf b => if m = 0 then F64.nan else F64.inf (a != b)
  | F64.fin a m, F64.fin b n => round (a != b) (m * n) (2 ^ 1074)

/-- Division: the exact quotient, rounded; `0 / 0` is NaN and `x / 0` an
infinity. -/
def div : F64 → F64 → F64
  | F64.nan, _ => F64.nan
  | _, F64.nan => F64.nan
  | F64.inf _, F64.inf _ => F64.nan
  | F64.inf a, F64.fin b _ => F64.inf (a != b)
  | F64.fin a _, F64.inf b => F64.fin (a != b) 0
  | F64.fin a m, F64.fin b n =>
    if n = 0 then (if m = 0 then F64.nan else F64.inf (a != b))
    else round (a != b) (m * 2 ^ 1074) n

instance : Add F64 := ⟨add⟩
instance : Sub F64 := ⟨sub⟩
instance : Mul F64 := ⟨mul⟩
instance : Div F64 := ⟨div⟩
instance : Neg F64 := ⟨neg⟩

/-- The comparison `x < y` of floats. -/
def lt : F64 → F64 → Bool
  | F64.nan, _ => false
  | _, F64.nan => false
  | F64.inf a, F64.inf b => a && !b
  | F64.inf a, F64.fin _ _ => a
  | F64.fin _ _, F64.inf b => !b
  | F64.fin false m, F64.fin false n => decide (m < n)
  | F64.fin true m, F64.fin true n => decide (n < m)
  | F64.fin true m, F64.fin false n => decide (0 < m + n)
  | F64.fin false _, F64.fin true _ => false

/-- The comparison `x == y` of floats (`+0 == -0`, NaN equals nothing). -/
def eq : F64 → F64 → Bool
  | F64.nan, _ => false
  | _, F64.nan => false
  | F64.inf a, F64.inf b => a == b
  | F64.inf _, F64.fin _ _ => false
  | F64.fin _ _, F64.inf _ => false
  | F64.fin a m, F64.fin b n => (m == n) && ((a == b) || (m == 0))

/-- The comparison `x <= y` of floats. -/
def le (x y : F64) : Bool := lt x y || eq x y

/-- Newton iteration for the integer square root, from above. -/
def isqrtAux (n : Nat) : Nat → Nat → Nat
  | 0, x => x
  | fuel + 1, x =>
    let y := (x + n / x) / 2
    if y < x then isqrtAux n fuel y else x

/-- The integer square root: the largest `r` with `r * r ≤ n`. -/
def isqrt (n : Nat) : Nat :=
  if n = 0 then 0 else isqrtAux n (log2 n + 2) (2 ^ (log2 n / 2 + 1))

/-- The function `math.Sqrt`: the exact square root rounded to nearest, NaN on
negative numbers. -/
def sqrt : F64 → F64
  | F64.nan => F64.nan
  | F64.inf s => if s then F64.nan else F64.inf false
  | F64.fin s m =>
    if m = 0 then F64.fin s 0
    else if s then F64.nan
    else
      let k := m * 2 ^ 1074
      let r := isqrt k
      let sh := log2 r - 52
      let hi := r / 2 ^ sh
      let mid := 2 * hi * 2 ^ sh + 2 ^ sh
      if 4 * k < mid * mid then F64.fin false (hi * 2 ^ sh)
      else if mid * mid < 4 * k then F64.fin false ((hi + 1) * 2 ^ sh)
      else if hi % 2 = 0 then F64.fin false (hi * 2 ^ sh)
      else F64.fin false ((hi + 1) * 2 ^ sh)

/-- The constant `math.Pi`. -/
def Pi : F64 := 3.14159265358979323846264338327950288419716939937510582097494459

/-- The untyped constant expression `4 / Pi`, rounded once. -/
def fourOverPi : F64 :=
  round false (4 * 10 ^ 62 * 2 ^ 1074)
    314159265358979323846264338327950288419716939937510582097494459

/-- The untyped constant expression `3 * Pi / 4`, rounded once. -/
def threePiOver4 : F64 :=
  round false (3 * 314159265358979323846264338327950288419716939937510582097494459 * 2 ^ 1074)
    (4 * 10 ^ 62)

/-- The conversion `uint64(x)` of a non-negative float below `2^64`. -/
def toUint64 : F64 → Nat
  | F64.fin false m => (m / 2 ^ 1074) % 2 ^ 64
  | _ => 0

/-- The table `mPi4` of `math/trig_reduce.go`: the binary digits of `4/π`. -/
def mPi4 : List Nat :=
  [0x0000000000000001, 0x45f306dc9c882a53, 0xf84eafa3ea69bb81, 0xb6c52b3278872083,
   0xfca2c757bd778ac3, 0x6e48dc74849ba5c0, 0x0c925dd413a32439, 0xfc3bd63962534e7d,
   0xd1046bea5d768909, 0xd338e04d68befc82, 0x7323ac7306a673e9, 0x3908bf177bf25076,
   0x3ff12fffbc0b301f, 0xde5e2316b414da3e, 0xda6cfd9e4f96136e, 0x9e8c7ecd3cbfd45a,
   0xea4f758fd7cbe2f6, 0x7a0e73ef14a525d4, 0xd7f6bf623f1aba10, 0xac06608df8f6d757]

/-- Left shift of a `uint64`. -/
def shl64 (a n : Nat) : Nat := if n < 64 then (a * 2 ^ n) % 2 ^ 64 else 0

/-- Right shift of a `uint64`. -/
def shr64 (a n : Nat) : Nat := if n < 64 then a / 2 ^ n else 0

/-- The function `trigReduce` of `math/trig_reduce.go` (Payne-Hanek): the
octant `j` and the reduced argument of a non-negative finite `x`. -/
def trigReduce (x : F64) : Nat × F64 :=
  match x with
  | F64.fin false m =>
    if lt x (Pi / 4) then (0, x)
    else
      -- x = ix * 2^exp with exp = k - 1074, so that exp + 61 = k - 1013
      let k := log2 m - 52
      let ix := m / 2 ^ k
      let digit := (k - 1013) / 64
      let bitshift := (k - 1013) % 64
      let w := fun i => mPi4.getD i 0
      let z0 := shl64 (w digit) bitshift ||| shr64 (w (digit + 1)) (64 - bitshift)
      let z1 := shl64 (w (digit + 1)) bitshift ||| shr64 (w (digit + 2)) (64 - bitshift)
      let z2 := shl64 (w (digit + 2)) bitshift ||| shr64 (w (digit + 3)) (64 - bitshift)
      let z2hi := (z2 * ix) / 2 ^ 64
      let z1hi := (z1 * ix) / 2 ^ 64
      let z1lo := (z1 * ix) % 2 ^ 64
      let z0lo := (z0 * ix) % 2 ^ 64
      let lo := (z1lo + z2hi) % 2 ^ 64
      let c := (z1lo + z2hi) / 2 ^ 64
      let hi := (z0lo + z1hi + c) % 2 ^ 64
      let j := hi / 2 ^ 61
      let hi3 := shl64 hi 3 ||| shr64 lo 61
      let lz := if hi3 = 0 then 64 else 63 - log2 hi3
      let low := if 64 < lz + 1 then 0 else shr64 lo (64 - (lz + 1))
      let frac := ((shl64 hi3 (lz + 1) ||| low) / 2 ^ 12) % 2 ^ 52
      -- the float with exponent field `bias - (lz + 1)` and mantissa field `frac`
      let z := F64.fin false ((2 ^ 52 + frac) * 2 ^ (1074 - 52 - (lz + 1)))
      if j % 2 = 1 then ((j + 1) % 8, (z - 1) * (Pi / 4))
      else (j, z * (Pi / 4))
  | _ => (0, x)

/-- The argument reduction shared by `sin` and `cos` of `math/sin.go`, for a
non-negative finite `x`: the octant `j` (odd octants mapped up, then modulo 8)
and the remainder `z`. -/
def reduce (x : F64) : Nat × F64 :=
  if le (ofNat (2 ^ 29)) x then trigReduce x
  else
    let j := toUint64 (x * fourOverPi)
    let j1 := if j % 2 = 1 then j + 1 else j
    let y := ofNat j1
    (j1 % 8, ((x - y * 7.85398125648498535156e-1) - y * 3.77489470793079817668e-8) -
      y * 2.69515142907905952645e-15)

/-- The sine polynomial of `math/sin.go` on the reduced argument. -/
def sinPoly (z : F64) : F64 :=
  let zz := z * z
  z + z * zz * ((((((1.58962301576546568060e-10 * zz) + -2.50507477628578072866e-8) * zz +
    2.75573136213857245213e-6) * zz + -1.98412698295895385996e-4) * zz +
    8.33333333332211858878e-3) * zz + -1.66666666666666307295e-1)

/-- The cosine polynomial of `math/sin.go` on the reduced argument. -/
def cosPoly (z : F64) : F64 :=
  let zz := z * z
  1.0 - 0.5 * zz + zz * zz * ((((((-1.13585365213876817300e-11 * zz) +
    2.08757008419747316778e-9) * zz + -2.75573141792967388112e-7) * zz +
    2.48015872888517045348e-5) * zz + -1.38888888888730564116e-3) * zz +
    4.16666666666665929218e-2)

/-- The function `math.Sin` (pure Go implementation, `math/sin.go`). -/
def Sin (x : F64) : F64 :=
  match x with
  | F64.nan => F64.nan
  | F64.inf _ => F64.nan
  | F64.fin s m =>
    if m = 0 then x
    else
      let jz := reduce (F64.fin false m)
      let sign := if 3 < jz.1 then !s else s
      let j := if 3 < jz.1 then jz.1 - 4 else jz.1
      let y := if j = 1 ∨ j = 2 then cosPoly jz.2 else sinPoly jz.2
      if sign then -y else y

/-- The function `math.Cos` (pure Go implementation, `math/sin.go`). -/
def Cos (x : F64) : F64 :=
  match x with
  | F64.nan => F64.nan
  | F64.inf _ => F64.nan
  | F64.fin _ m =>
    let jz := reduce (F64.fin false m)
    let sign1 := decide (3 < jz.1)
    let j := if 3 < jz.1 then jz.1 - 4 else jz.1
    let sign := if 1 < j then !sign1 else sign1
    let y := if j = 1 ∨ j = 2 then sinPoly jz.2 else cosPoly jz.2
    if sign then -y else y

/-- The function `xatan` of `math/atan.go`. -/
def xatan (x : F64) : F64 :=
  let z := x * x
  let z1 := z * ((((-8.750608600031904122785e-01 * z + -1.615753718733365076637e+01) * z +
      -7.500855792314704667340e+01) * z + -1.228866684490136173410e+02) * z +
      -6.485021904942025371773e+01) /
    (((((z + 2.485846490142306297962e+01) * z + 1.650270098316988542046e+02) * z +
      4.328810604912902668951e+02) * z + 4.853903996359136964868e+02) * z +
      1.945506571482613964425e+02)
  x * z1 + x

/-- The function `satan` of `math/atan.go`, for a positive argument. -/
def satan (x : F64) : F64 :=
  if le x 0.66 then xatan x
  else if lt 2.41421356237309504880 x then
    Pi / 2 - xatan (1 / x) + 6.123233995736765886130e-17
  else Pi / 4 + xatan ((x - 1) / (x + 1)) + 0.5 * 6.123233995736765886130e-17

/-- The function `math.Atan`. -/
def Atan (x : F64) : F64 :=
  if eq x 0 then x
  else if lt 0 x then satan x
  else -satan (-x)

/-- The function `math.Atan2`. -/
def Atan2 (y x : F64) : F64 :=
  if isNaN x || isNaN y then F64.nan
  else if eq y 0 then
    if le 0 x && !signbit x then copysign 0 y else copysign Pi y
  else if eq x 0 then copysign (Pi / 2) y
  else if isInf x then
    if !signbit x then
      if isInf y then copysign (Pi / 4) y else copysign 0 y
    else
      if isInf y then copysign threePiOver4 y else copysign Pi y
  else if isInf y then copysign (Pi / 2) y
  else
    let q := Atan (y / x)
    if lt x 0 then
      if le q 0 then q + Pi else q - Pi
    else q

/-- The call `math.Pow(x, 2)`: the path of `math/pow.go` for the exponent `2`
(the square of the fraction of `Frexp(x)` rounded to 53 bits, then `Ldexp`). -/
def Pow2 (x : F64) : F64 :=
  match x with
  | F64.nan => F64.nan
  | F64.inf _ => F64.inf false
  | F64.fin _ m =>
    if m = 0 then F64.fin false 0
    else
      let n := m * m
      let sh := log2 n - 52
      round false (rne n (2 ^ sh) * 2 ^ sh) (2 ^ 1074)

/-- Coord represents a geographic coordinate. -/
structure Coord where
  Lat : F64
  Lon : F64
  deriving DecidableEq

/-- The function `degreesToRadians`. -/
def degreesToRadians (d : F64) : F64 := d * Pi / 180

/-- The function `radiansToDegrees`. -/
def radiansToDegrees (d : F64) : F64 := d * 180 / Pi

/-- The local `a` of `Distance` (line 40). -/
def distanceA (p q : Coord) : F64 :=
  let lat1 := degreesToRadians p.Lat
  let lon1 := degreesToRadians p.Lon
  let lat2 := degreesToRadians q.Lat
  let lon2 := degreesToRadians q.Lon
  let diffLat := lat2 - lat1
  let diffLon := lon2 - lon1
  Pow2 (Sin (diffLat / 2)) + Cos lat1 * Cos lat2 * Pow2 (Sin (diffLon / 2))

/-- The function `Distance`: miles and kilometers. -/
def Distance (p q : Coord) : F64 × F64 :=
  let a := distanceA p q
  let c := 2 * Atan2 (sqrt a) (sqrt (1 - a))
  (c * 3958, c * 6371)

/-- The local `a` of `IntermediatePointTo` (line 62). -/
def interA (inpoint point : Coord) : F64 :=
  let lat1 := degreesToRadians inpoint.Lat
  let lon1 := degreesToRadians inpoint.Lon
  let lat2 := degreesToRadians point.Lat
  let lon2 := degreesToRadians point.Lon
  let deltaLat := lat2 - lat1
  let deltaLon := lon2 - lon1
  Sin (deltaLat / 2) * Sin (deltaLat / 2) +
    Cos lat1 * Cos lat2 * Sin (deltaLon / 2) * Sin (deltaLon / 2)

/-- The local `dBetween` of `IntermediatePointTo` (line 63). -/
def dBetween (inpoint point : Coord) : F64 :=
  let a := interA inpoint point
  2 * Atan2 (sqrt a) (sqrt (1 - a))

/-- The method `Coord.IntermediatePointTo`. -/
def IntermediatePointTo (inpoint point : Coord) (fraction : F64) : Coord :=
  let lat1 := degreesToRadians inpoint.Lat
  let lon1 := degreesToRadians inpoint.Lon
  let lat2 := degreesToRadians point.Lat
  let lon2 := degreesToRadians point.Lon
  let dB := dBetween inpoint point
  let A := Sin ((1 - fraction) * dB) / Sin dB
  let B := Sin (fraction * dB) / Sin dB
  let x := A * Cos lat1 * Cos lon1 + B * Cos lat2 * Cos lon2
  let y := A * Cos lat1 * Sin lon1 + B * Cos lat2 * Sin lon2
  let z := A * Sin lat1 + B * Sin lat2
  let lat3Rad := Atan2 z (sqrt (x * x + y * y))
  let lon3Rad := Atan2 y x
  ⟨radiansToDegrees lat3Rad, radiansToDegrees lon3Rad⟩

end Float64

end Haversine

/-! ## The program over the real numbers -/

noncomputable section

namespace Haversine

/-- Radius of the earth in miles. -/
def earthRadiusMi : ℝ := 3958

/-- Radius of the earth in kilometers (the name is the one of the source). -/
def earthRaidusKm : ℝ := 6371

/-- Coord represents a geographic coordinate, in degrees. -/
structure Coord where
  Lat : ℝ
  Lon : ℝ

/-- The function `degreesToRadians` converts from degrees to radians. -/
def degreesToRadians (d : ℝ) : ℝ := d * Real.pi / 180

/-- The function `radiansToDegrees` converts from radians to degrees. -/
def radiansToDegrees (d : ℝ) : ℝ := d * 180 / Real.pi

/-- The library function `math.Atan2(y, x)` over the reals. -/
def atan2 (y x : ℝ) : ℝ :=
  if y = 0 then
    if 0 ≤ x then 0 else Real.pi
  else if x = 0 then
    if 0 < y then Real.pi / 2 else -(Real.pi / 2)
  else
    let q := Real.arctan (y / x)
    if x < 0 then
      if q ≤ 0 then q + Real.pi else q - Real.pi
    else q

/-- Division by a program value: no result when the divisor is zero. -/
def fdiv (x y : ℝ) : Option ℝ :=
  if y = 0 then none else some (x / y)

/-- The local `a` of `Distance` (line 40): the haversine term, squares taken
with `math.Pow`. -/
def distanceA (p q : Coord) : ℝ :=
  let lat1 := degreesToRadians p.Lat
  let lon1 := degreesToRadians p.Lon
  let lat2 := degreesToRadians q.Lat
  let lon2 := degreesToRadians q.Lon
  let diffLat := lat2 - lat1
  let diffLon := lon2 - lon1
  Real.sin (diffLat / 2) ^ 2 + Real.cos lat1 * Real.cos lat2 * Real.sin (diffLon / 2) ^ 2

/-- The local `c` of `Distance` (line 43): the central angle in radians. -/
def distanceC (p q : Coord) : ℝ :=
  let a := distanceA p q
  2 * atan2 (Real.sqrt a) (Real.sqrt (1 - a))

/-- The function `Distance`: the pair (miles, kilometers). -/
def Distance (p q : Coord) : ℝ × ℝ :=
  let c := distanceC p q
  (c * earthRadiusMi, c * earthRaidusKm)

/-- The local `a` of `IntermediatePointTo` (line 62): the haversine term,
squares written as products. -/
def interA (inpoint point : Coord) : ℝ :=
  let lat1 := degreesToRadians inpoint.Lat
  let lon1 := degreesToRadians inpoint.Lon
  let lat2 := degreesToRadians point.Lat
  let lon2 := degreesToRadians point.Lon
  let deltaLat := lat2 - lat1
  let deltaLon := lon2 - lon1
  Real.sin (deltaLat / 2) * Real.sin (deltaLat / 2) +
    Real.cos lat1 * Real.cos lat2 * Real.sin (deltaLon / 2) * Real.sin (deltaLon / 2)

/-- The local `dBetween` of `IntermediatePointTo` (line 63). -/
def dBetween (inpoint point : Coord) : ℝ :=
  let a := interA inpoint point
  2 * atan2 (Real.sqrt a) (Real.sqrt (1 - a))

/-- The method `Coord.IntermediatePointTo`: the point at the given fraction
between `inpoint` and `point`; `none` when a weight is a division by zero. -/
def IntermediatePointTo (inpoint point : Coord) (fraction : ℝ) : Option Coord := do
  let lat1 := degreesToRadians inpoint.Lat
  let lon1 := degreesToRadians inpoint.Lon
  let lat2 := degreesToRadians point.Lat
  let lon2 := degreesToRadians point.Lon
  let dB := dBetween inpoint point
  let A ← fdiv (Real.sin ((1 - fraction) * dB)) (Real.sin dB)
  let B ← fdiv (Real.sin (fraction * dB)) (Real.sin dB)
  let x := A * Real.cos lat1 * Real.cos lon1 + B * Real.cos lat2 * Real.cos lon2
  let y := A * Real.cos lat1 * Real.sin lon1 + B * Real.cos lat2 * Real.sin lon2
  let z := A * Real.sin lat1 + B * Real.sin lat2
  let lat3Rad := atan2 z (Real.sqrt (x * x + y * y))
  let lon3Rad := atan2 y x
  pure ⟨radiansToDegrees lat3Rad, radiansToDegrees lon3Rad⟩

/-! ## Definitions used to state the properties -/

/-- The cosine of the central angle as the claim writes it: the inner product
of the unit vectors of the two points. -/
def sphereDot (p q : Coord) : ℝ :=
  Real.sin (degreesToRadians p.Lat) * Real.sin (degreesToRadians q.Lat) +
    Real.cos (degreesToRadians p.Lat) * Real.cos (degreesToRadians q.Lat) *
      Real.cos (degreesToRadians q.Lon - degreesToRadians p.Lon)

/-- The central angle as the claim writes it. -/
def centralAngle (p q : Coord) : ℝ := Real.arccos (sphereDot p q)

/-- The first Cartesian component of the point of the unit sphere at `p`. -/
def cartX (p : Coord) : ℝ :=
  Real.cos (degreesToRadians p.Lat) * Real.cos (degreesToRadians p.Lon)

/-- The second Cartesian component of the point of the unit sphere at `p`. -/
def cartY (p : Coord) : ℝ :=
  Real.cos (degreesToRadians p.Lat) * Real.sin (degreesToRadians p.Lon)

/-- The third Cartesian component of the point of the unit sphere at `p`. -/
def cartZ (p : Coord) : ℝ := Real.sin (degreesToRadians p.Lat)

/-- The weight `A` of line 65 where the divisor `math.Sin(dBetween)` is not zero. -/
def weightA (inpoint point : Coord) (fraction : ℝ) : ℝ :=
  Real.sin ((1 - fraction) * dBetween inpoint point) / Real.sin (dBetween inpoint point)

/-- The weight `B` of line 66 where the divisor `math.Sin(dBetween)` is not zero. -/
def weightB (inpoint point : Coord) (fraction : ℝ) : ℝ :=
  Real.sin (fraction * dBetween inpoint point) / Real.sin (dBetween inpoint point)

/-- The local `x` of line 68, from the weights `weightA` and `weightB`. -/
def interX (inpoint point : Coord) (fraction : ℝ) : ℝ :=
  weightA inpoint point fraction * Real.cos (degreesToRadians inpoint.Lat) *
      Real.cos (degreesToRadians inpoint.Lon) +
    weightB inpoint point fraction * Real.cos (degreesToRadians point.Lat) *
      Real.cos (degreesToRadians point.Lon)

/-- The local `y` of line 69, from the weights `weightA` and `weightB`. -/
def interY (inpoint point : Coord) (fraction : ℝ) : ℝ :=
  weightA inpoint point fraction * Real.cos (degreesToRadians inpoint.Lat) *
      Real.sin (degreesToRadians inpoint.Lon) +
    weightB inpoint point fraction * Real.cos (degreesToRadians point.Lat) *
      Real.sin (degreesToRadians point.Lon)

/-- The local `z` of line 70, from the weights `weightA` and `weightB`. -/
def interZ (inpoint point : Coord) (fraction : ℝ) : ℝ :=
  weightA inpoint point fraction * Real.sin (degreesToRadians inpoint.Lat) +
    weightB inpoint point fraction * Real.sin (degreesToRadians point.Lat)

/-- The coordinate built by lines 72 to 77 from `interX`, `interY`, `interZ`. -/
def interPoint (inpoint point : Coord) (fraction : ℝ) : Coord :=
  ⟨radiansToDegrees (atan2 (interZ inpoint point fraction)
      (Real.sqrt (interX inpoint point fraction * interX inpoint point fraction +
        interY inpoint point fraction * interY inpoint point fraction))),
    radiansToDegrees (atan2 (interY inpoint point fraction) (interX inpoint point fraction))⟩

/-! ## The two-argument arctangent -/

theorem atan2_nonneg {y x : ℝ} (hy : 0 ≤ y) (hx : 0 ≤ x) : 0 ≤ atan2 y x := by
  unfold atan2
  by_cases h1 : y = 0
  · rw [if_pos h1, if_pos hx]
  · rw [if_neg h1]
    have hy0 : 0 < y := lt_of_le_of_ne hy (Ne.symm h1)
    by_cases h2 : x = 0
    · rw [if_pos h2, if_pos hy0]
      exact (div_pos Real.pi_pos two_pos).le
    · rw [if_neg h2]
      simp only []
      rw [if_neg (not_lt.mpr hx), Real.arctan_eq_arcsin]
      apply Real.arcsin_nonneg.mpr
      positivity

/-- The arctangent of a point given in polar form is its angle. -/
theorem atan2_polar {r t : ℝ} (hr : 0 < r) (h1 : -Real.pi < t) (h2 : t ≤ Real.pi) :
    atan2 (r * Real.sin t) (r * Real.cos t) = t := by
  have hpi := Real.pi_pos
  unfold atan2
  by_cases hs : Real.sin t = 0
  · rw [if_pos (by rw [hs, mul_zero])]
    rcases eq_or_lt_of_le h2 with h | h
    · subst h
      rw [if_neg]
      simp only [Real.cos_pi]
      nlinarith
    · have ht : t = 0 := by
        by_contra hne
        rcases lt_or_gt_of_ne hne with hn | hp
        · have := Real.sin_neg_of_neg_of_neg_pi_lt hn h1
          linarith
        · have := Real.sin_pos_of_pos_of_lt_pi hp h
          linarith
      subst ht
      simp [hr.le]
  · rw [if_neg (mul_ne_zero hr.ne.symm (by exact hs))]
    by_cases hc : Real.cos t = 0
    · rw [if_pos (by rw [hc, mul_zero])]
      by_cases hpos : 0 < t
      · have hsp : 0 < Real.sin t := by
          rcases eq_or_lt_of_le h2 with h | h
          · subst h; simp at hs
          · exact Real.sin_pos_of_pos_of_lt_pi hpos h
        rw [if_pos (mul_pos hr hsp)]
        by_contra hne
        rcases lt_or_gt_of_ne hne with hn | hp
        · have := Real.cos_neg_of_pi_div_two_lt_of_lt hn (by linarith)
          linarith
        · have := Real.cos_pos_of_mem_Ioo ⟨by linarith, hp⟩
          linarith
      · have hneg : t < 0 := by
          rcases eq_or_lt_of_le (not_lt.mp hpos) with h | h
          · subst h; simp at hs
          · exact h
        have hsn : Real.sin t < 0 := Real.sin_neg_of_neg_of_neg_pi_lt hneg h1
        rw [if_neg (by nlinarith)]
        by_contra hne
        rcases lt_or_gt_of_ne hne with hn | hp
        · have := Real.cos_pos_of_mem_Ioo ⟨hn, by linarith⟩
          linarith
        · have h3 : Real.cos (-t) < 0 :=
            Real.cos_neg_of_pi_div_two_lt_of_lt (by linarith) (by linarith)
          rw [Real.cos_neg] at h3
          linarith
    · rw [if_neg (mul_ne_zero hr.ne.symm (by exact hc))]
      have hq : r * Real.sin t / (r * Real.cos t) = Real.tan t := by
        rw [Real.tan_eq_sin_div_cos]
        field_simp
        ring
      simp only [hq]
      rcases lt_or_gt_of_ne hc with hcn | hcp
      · rw [if_pos (by nlinarith)]
        by_cases htp : 0 < t
        · have hlt : Real.pi / 2 < t := by
            by_contra hle
            have := Real.cos_nonneg_of_mem_Icc ⟨by linarith, not_lt.mp hle⟩
            linarith
          have hlt2 : t < Real.pi := by
            rcases eq_or_lt_of_le h2 with h | h
            · subst h; simp at hs
            · exact h
          have : Real.arctan (Real.tan t) = t - Real.pi := by
            rw [← Real.tan_sub_pi t]
            exact Real.arctan_tan (by linarith) (by linarith)
          rw [this, if_pos (by linarith)]
          ring
        · have hgt : t < -(Real.pi / 2) := by
            by_contra hle
            have := Real.cos_nonneg_of_mem_Icc ⟨not_lt.mp hle, by linarith⟩
            linarith
          have : Real.arctan (Real.tan t) = t + Real.pi := by
            rw [← Real.tan_add_pi t]
            exact Real.arctan_tan (by linarith) (by linarith)
          rw [this, if_neg (by linarith)]
          ring
      · rw [if_neg (by nlinarith)]
        have hlo : -(Real.pi / 2) < t := by
          by_contra hle
          have h3 : Real.cos (-t) ≤ 0 :=
            Real.cos_nonpos_of_pi_div_two_le_of_le (by linarith) (by linarith)
          rw [Real.cos_neg] at h3
          linarith
        have hhi : t < Real.pi / 2 := by
          by_contra hle
          have := Real.cos_nonpos_of_pi_div_two_le_of_le (not_lt.mp hle) (by linarith)
          linarith
        exact Real.arctan_tan hlo hhi

/-- For `a` in `[0, 1]` the angle `2 * atan2 (√a) (√(1 - a))` is the
arccosine of `1 - 2 * a`. -/
theorem two_atan2_sqrt {a : ℝ} (h0 : 0 ≤ a) (h1 : a ≤ 1) :
    2 * atan2 (Real.sqrt a) (Real.sqrt (1 - a)) = Real.arccos (1 - 2 * a) := by
  have hpi := Real.pi_pos
  have hs0 : 0 ≤ Real.sqrt a := Real.sqrt_nonneg a
  have hs1 : Real.sqrt a ≤ 1 := Real.sqrt_le_one.mpr h1
  have hsq : Real.sqrt a ^ 2 = a := Real.sq_sqrt h0
  have ht0 : 0 ≤ Real.arcsin (Real.sqrt a) := Real.arcsin_nonneg.mpr hs0
  have ht1 : Real.arcsin (Real.sqrt a) ≤ Real.pi / 2 := Real.arcsin_le_pi_div_two _
  have hsin : Real.sin (Real.arcsin (Real.sqrt a)) = Real.sqrt a :=
    Real.sin_arcsin (by linarith) hs1
  have hcos : Real.cos (Real.arcsin (Real.sqrt a)) = Real.sqrt (1 - a) := by
    rw [Real.cos_arcsin, hsq]
  have hat : atan2 (Real.sqrt a) (Real.sqrt (1 - a)) = Real.arcsin (Real.sqrt a) := by
    have h := atan2_polar (r := 1) (t := Real.arcsin (Real.sqrt a)) one_pos
      (by linarith) (by linarith)
    rwa [one_mul, one_mul, hsin, hcos] at h
  rw [hat]
  have hc2 : Real.cos (2 * Real.arcsin (Real.sqrt a)) = 1 - 2 * a := by
    rw [Real.cos_two_mul, Real.cos_sq', hsin, hsq]
    ring
  rw [← hc2, Real.arccos_cos (by linarith) (by linarith)]

/-! ## The haversine term and the central angle -/

theorem interA_eq_distanceA (p q : Coord) : interA p q = distanceA p q := by
  unfold interA distanceA
  simp only []
  ring

theorem dBetween_eq_distanceC (p q : Coord) : dBetween p q = distanceC p q := by
  unfold dBetween distanceC
  simp only [interA_eq_distanceA]

theorem one_sub_two_distanceA (p q : Coord) : 1 - 2 * distanceA p q = sphereDot p q := by
  unfold distanceA sphereDot
  simp only []
  generalize degreesToRadians p.Lat = f1
  generalize degreesToRadians q.Lat = f2
  generalize degreesToRadians q.Lon - degreesToRadians p.Lon = dl
  rw [Real.sin_sq_eq_half_sub, Real.sin_sq_eq_half_sub]
  have e1 : 2 * ((f2 - f1) / 2) = f2 - f1 := by ring
  have e2 : 2 * (dl / 2) = dl := by ring
  rw [e1, e2, Real.cos_sub]
  ring

theorem sphereDot_le_one (p q : Coord) : sphereDot p q ≤ 1 := by
  unfold sphereDot
  generalize degreesToRadians p.Lat = f1
  generalize degreesToRadians q.Lat = f2
  generalize degreesToRadians q.Lon - degreesToRadians p.Lon = dl
  have hk1 := Real.cos_le_one dl
  have hk2 := Real.neg_one_le_cos dl
  have hA : Real.cos (f1 - f2) ≤ 1 := Real.cos_le_one _
  have hB : -1 ≤ Real.cos (f1 + f2) := Real.neg_one_le_cos _
  rw [Real.cos_sub] at hA
  rw [Real.cos_add] at hB
  nlinarith [mul_nonneg (sub_nonneg.mpr hA) (by linarith : (0 : ℝ) ≤ 1 + Real.cos dl),
    mul_nonneg (by linarith : (0 : ℝ) ≤ 1 + (Real.cos f1 * Real.cos f2 - Real.sin f1 * Real.sin f2))
      (sub_nonneg.mpr hk1)]

theorem neg_one_le_sphereDot (p q : Coord) : -1 ≤ sphereDot p q := by
  unfold sphereDot
  generalize degreesToRadians p.Lat = f1
  generalize degreesToRadians q.Lat = f2
  generalize degreesToRadians q.Lon - degreesToRadians p.Lon = dl
  have hk1 := Real.cos_le_one dl
  have hk2 := Real.neg_one_le_cos dl
  have hA : -1 ≤ Real.cos (f1 - f2) := Real.neg_one_le_cos _
  have hB : Real.cos (f1 + f2) ≤ 1 := Real.cos_le_one _
  rw [Real.cos_sub] at hA
  rw [Real.cos_add] at hB
  nlinarith [mul_nonneg (by linarith : (0 : ℝ) ≤ 1 + (Real.cos f1 * Real.cos f2 + Real.sin f1 * Real.sin f2))
      (by linarith : (0 : ℝ) ≤ 1 + Real.cos dl),
    mul_nonneg (sub_nonneg.mpr hB) (sub_nonneg.mpr hk1)]

theorem distanceA_nonneg (p q : Coord) : 0 ≤ distanceA p q := by
  have h1 := one_sub_two_distanceA p q
  have h2 := sphereDot_le_one p q
  linarith

theorem distanceA_le_one (p q : Coord) : distanceA p q ≤ 1 := by
  have h1 := one_sub_two_distanceA p q
  have h2 := neg_one_le_sphereDot p q
  linarith

theorem distanceC_eq_centralAngle (p q : Coord) : distanceC p q = centralAngle p q := by
  unfold distanceC centralAngle
  simp only []
  rw [two_atan2_sqrt (distanceA_nonneg p q) (distanceA_le_one p q), one_sub_two_distanceA]

theorem distanceA_comm (p q : Coord) : distanceA p q = distanceA q p := by
  unfold distanceA
  simp only []
  have e1 : (degreesToRadians q.Lat - degreesToRadians p.Lat) / 2 =
      -((degreesToRadians p.Lat - degreesToRadians q.Lat) / 2) := by ring
  have e2 : (degreesToRadians q.Lon - degreesToRadians p.Lon) / 2 =
      -((degreesToRadians p.Lon - degreesToRadians q.Lon) / 2) := by ring
  rw [e1, e2, Real.sin_neg, Real.sin_neg]
  ring

theorem distanceA_self (p : Coord) : distanceA p p = 0 := by
  unfold distanceA
  simp

theorem distanceC_self (p : Coord) : distanceC p p = 0 := by
  unfold distanceC
  simp only [distanceA_self]
  unfold atan2
  simp

theorem distanceC_nonneg (p q : Coord) : 0 ≤ distanceC p q := by
  unfold distanceC
  simp only []
  have := atan2_nonneg (Real.sqrt_nonneg (distanceA p q))
    (Real.sqrt_nonneg (1 - distanceA p q))
  linarith

theorem distanceC_le_pi (p q : Coord) : distanceC p q ≤ Real.pi := by
  rw [distanceC_eq_centralAngle]
  exact Real.arccos_le_pi _

/-! ## Claims on `Distance` -/

/-- C3: `Distance p q` equals `Distance q p`, in miles and in kilometers. -/
theorem Distance_symm (p q : Coord) :
    (Distance p q).1 = (Distance q p).1 ∧ (Distance p q).2 = (Distance q p).2 := by
  unfold Distance distanceC
  simp only [distanceA_comm p q, and_self]

/-- C4: `Distance p p` is exactly `(0, 0)`. -/
theorem Distance_self (p : Coord) : Distance p p = (0, 0) := by
  unfold Distance
  simp only [distanceC_self, zero_mul]

/-- In exact real arithmetic, for all coordinates, with no restriction on the
ranges of latitude and longitude, both distances of `Distance` are
non-negative. -/
theorem Distance_nonneg (p q : Coord) :
    0 ≤ (Distance p q).1 ∧ 0 ≤ (Distance p q).2 := by
  have h := distanceC_nonneg p q
  unfold Distance earthRadiusMi earthRaidusKm
  simp only []
  constructor <;> nlinarith

theorem degreesToRadians_neg (d : ℝ) : degreesToRadians (-d) = -degreesToRadians d := by
  unfold degreesToRadians
  ring

theorem degreesToRadians_add_180 (d : ℝ) :
    degreesToRadians (d + 180) = degreesToRadians d + Real.pi := by
  unfold degreesToRadians
  ring

theorem distanceC_antipode (p : Coord) :
    distanceC p ⟨-p.Lat, p.Lon + 180⟩ = Real.pi := by
  rw [distanceC_eq_centralAngle]
  unfold centralAngle sphereDot
  simp only [degreesToRadians_neg, degreesToRadians_add_180, add_sub_cancel_left,
    Real.cos_pi, Real.sin_neg, Real.cos_neg]
  have h := Real.sin_sq_add_cos_sq (degreesToRadians p.Lat)
  have e : Real.sin (degreesToRadians p.Lat) * -Real.sin (degreesToRadians p.Lat) +
      Real.cos (degreesToRadians p.Lat) * Real.cos (degreesToRadians p.Lat) * -1 = -1 := by
    nlinarith
  rw [e, Real.arccos_neg_one]

/-- In exact real arithmetic, both distances of `Distance` are at most `π`
times the radius, and the bound is attained at the antipode
`{Lat: -p.Lat, Lon: p.Lon + 180}` of every `p`. -/
theorem Distance_le_half_circumference (p q : Coord) :
    (Distance p q).1 ≤ 3958 * Real.pi ∧ (Distance p q).2 ≤ 6371 * Real.pi ∧
    Distance p ⟨-p.Lat, p.Lon + 180⟩ = (3958 * Real.pi, 6371 * Real.pi) := by
  have h := distanceC_le_pi p q
  refine ⟨?_, ?_, ?_⟩
  · unfold Distance earthRadiusMi
    simp only []
    linarith
  · unfold Distance earthRaidusKm
    simp only []
    linarith
  · unfold Distance earthRadiusMi earthRaidusKm
    simp only [distanceC_antipode]
    ext <;> simp only [] <;> ring

/-! ## `IntermediatePointTo` where the weights are defined -/

theorem IntermediatePointTo_of_sin_ne_zero {p q : Coord} (f : ℝ)
    (h : Real.sin (dBetween p q) ≠ 0) :
    IntermediatePointTo p q f = some (interPoint p q f) := by
  unfold IntermediatePointTo fdiv interPoint interX interY interZ weightA weightB
  simp only [if_neg h]
  rfl

theorem IntermediatePointTo_of_sin_eq_zero {p q : Coord} (f : ℝ)
    (h : Real.sin (dBetween p q) = 0) :
    IntermediatePointTo p q f = none := by
  unfold IntermediatePointTo fdiv
  simp only [if_pos h]
  rfl

theorem dBetween_self (p : Coord) : dBetween p p = 0 := by
  rw [dBetween_eq_distanceC, distanceC_self]

/-- C7: for every coordinate `p` and every fraction `f`, the call
`p.IntermediatePointTo(p, f)` computes `dBetween = 0`, the divisor
`sin dBetween` of both weights is `0`, both divisions have no result, and the
call has no result (in particular it does not return `p`). -/
theorem IntermediatePointTo_self_undefined (p : Coord) (f : ℝ) :
    dBetween p p = 0 ∧ Real.sin (dBetween p p) = 0 ∧
    fdiv (Real.sin ((1 - f) * dBetween p p)) (Real.sin (dBetween p p)) = none ∧
    fdiv (Real.sin (f * dBetween p p)) (Real.sin (dBetween p p)) = none ∧
    IntermediatePointTo p p f = none ∧ IntermediatePointTo p p f ≠ some p := by
  have h0 : Real.sin (dBetween p p) = 0 := by rw [dBetween_self, Real.sin_zero]
  have hn := IntermediatePointTo_of_sin_eq_zero (p := p) (q := p) f h0
  refine ⟨dBetween_self p, h0, ?_, ?_, hn, ?_⟩
  · unfold fdiv
    rw [if_pos h0]
  · unfold fdiv
    rw [if_pos h0]
  · rw [hn]
    exact fun h => Option.noConfusion h

/-! ## Unit vectors and the interpolated vector -/

theorem atan2_eq_arg (y x : ℝ) : atan2 y x = Complex.arg ⟨x, y⟩ := by
  by_cases hz : (⟨x, y⟩ : ℂ) = 0
  · have hx : x = 0 := congrArg Complex.re hz
    have hy : y = 0 := congrArg Complex.im hz
    subst hx
    subst hy
    have h0 : (⟨0, 0⟩ : ℂ) = 0 := rfl
    rw [h0, Complex.arg_zero]
    unfold atan2
    simp
  · have hr : 0 < Complex.abs ⟨x, y⟩ := Complex.abs.pos hz
    have hc := Complex.cos_arg hz
    have hs := Complex.sin_arg (⟨x, y⟩ : ℂ)
    simp only [] at hc hs
    have hx : x = Complex.abs ⟨x, y⟩ * Real.cos (Complex.arg ⟨x, y⟩) := by
      rw [hc]
      field_simp
    have hy : y = Complex.abs ⟨x, y⟩ * Real.sin (Complex.arg ⟨x, y⟩) := by
      rw [hs]
      field_simp
    have h := atan2_polar hr (Complex.neg_pi_lt_arg ⟨x, y⟩) (Complex.arg_le_pi ⟨x, y⟩)
    rw [← hx, ← hy] at h
    exact h

theorem abs_mk_eq_sqrt (x y : ℝ) : Complex.abs ⟨x, y⟩ = Real.sqrt (x * x + y * y) := by
  rw [Complex.abs_apply, Complex.normSq_mk]

theorem sqrt_mul_cos_atan2 (y x : ℝ) :
    Real.sqrt (x * x + y * y) * Real.cos (atan2 y x) = x := by
  by_cases hz : (⟨x, y⟩ : ℂ) = 0
  · have hx : x = 0 := congrArg Complex.re hz
    have hy : y = 0 := congrArg Complex.im hz
    subst hx
    subst hy
    simp
  · have hr : 0 < Complex.abs ⟨x, y⟩ := Complex.abs.pos hz
    have hc := Complex.cos_arg hz
    simp only [] at hc
    rw [atan2_eq_arg, hc, ← abs_mk_eq_sqrt]
    field_simp

theorem sqrt_mul_sin_atan2 (y x : ℝ) :
    Real.sqrt (x * x + y * y) * Real.sin (atan2 y x) = y := by
  by_cases hz : (⟨x, y⟩ : ℂ) = 0
  · have hx : x = 0 := congrArg Complex.re hz
    have hy : y = 0 := congrArg Complex.im hz
    subst hx
    subst hy
    simp
  · have hr : 0 < Complex.abs ⟨x, y⟩ := Complex.abs.pos hz
    have hs := Complex.sin_arg (⟨x, y⟩ : ℂ)
    simp only [] at hs
    rw [atan2_eq_arg, hs, ← abs_mk_eq_sqrt]
    field_simp

theorem degreesToRadians_radiansToDegrees (t : ℝ) :
    degreesToRadians (radiansToDegrees t) = t := by
  unfold degreesToRadians radiansToDegrees
  field_simp

theorem radiansToDegrees_degreesToRadians (t : ℝ) :
    radiansToDegrees (degreesToRadians t) = t := by
  unfold degreesToRadians radiansToDegrees
  field_simp

/-- A unit vector is recovered from the latitude and longitude that lines 72
to 76 compute from it. -/
theorem cart_of_unit {x y z : ℝ} (h : x * x + y * y + z * z = 1) :
    cartX ⟨radiansToDegrees (atan2 z (Real.sqrt (x * x + y * y))),
        radiansToDegrees (atan2 y x)⟩ = x ∧
    cartY ⟨radiansToDegrees (atan2 z (Real.sqrt (x * x + y * y))),
        radiansToDegrees (atan2 y x)⟩ = y ∧
    cartZ ⟨radiansToDegrees (atan2 z (Real.sqrt (x * x + y * y))),
        radiansToDegrees (atan2 y x)⟩ = z := by
  have hnn : 0 ≤ x * x + y * y := add_nonneg (mul_self_nonneg x) (mul_self_nonneg y)
  have hrr : Real.sqrt (x * x + y * y) * Real.sqrt (x * x + y * y) = x * x + y * y :=
    Real.mul_self_sqrt hnn
  have hone : Real.sqrt (Real.sqrt (x * x + y * y) * Real.sqrt (x * x + y * y) + z * z) = 1 := by
    rw [hrr, h, Real.sqrt_one]
  have hcos := sqrt_mul_cos_atan2 z (Real.sqrt (x * x + y * y))
  have hsin := sqrt_mul_sin_atan2 z (Real.sqrt (x * x + y * y))
  rw [hone, one_mul] at hcos hsin
  unfold cartX cartY cartZ
  simp only [degreesToRadians_radiansToDegrees]
  rw [hcos, hsin]
  exact ⟨sqrt_mul_cos_atan2 y x, sqrt_mul_sin_atan2 y x, rfl⟩

theorem cart_norm (p : Coord) :
    cartX p * cartX p + cartY p * cartY p + cartZ p * cartZ p = 1 := by
  unfold cartX cartY cartZ
  have h1 := Real.sin_sq_add_cos_sq (degreesToRadians p.Lat)
  have h2 := Real.sin_sq_add_cos_sq (degreesToRadians p.Lon)
  linear_combination h1 + Real.cos (degreesToRadians p.Lat) ^ 2 * h2

theorem cart_dot (p q : Coord) :
    cartX p * cartX q + cartY p * cartY q + cartZ p * cartZ q = sphereDot p q := by
  unfold cartX cartY cartZ sphereDot
  rw [Real.cos_sub]
  ring

theorem cos_dBetween (p q : Coord) : Real.cos (dBetween p q) = sphereDot p q := by
  rw [dBetween_eq_distanceC, distanceC_eq_centralAngle]
  unfold centralAngle
  exact Real.cos_arccos (neg_one_le_sphereDot p q) (sphereDot_le_one p q)

/-- C1: for all coordinates `p` and `q`, `Distance p q` is the great-circle
distance: miles are `3958 * θ` and kilometers `6371 * θ`, where
`θ = arccos (sin lat1 * sin lat2 + cos lat1 * cos lat2 * cos (lon2 - lon1))`,
latitudes and longitudes in radians; `θ` lies in `[0, π]` and its cosine is the
inner product of the unit vectors of the two points. -/
theorem Distance_eq_great_circle (p q : Coord) :
    Distance p q =
      (3958 * Real.arccos
          (Real.sin (degreesToRadians p.Lat) * Real.sin (degreesToRadians q.Lat) +
            Real.cos (degreesToRadians p.Lat) * Real.cos (degreesToRadians q.Lat) *
              Real.cos (degreesToRadians q.Lon - degreesToRadians p.Lon)),
        6371 * Real.arccos
          (Real.sin (degreesToRadians p.Lat) * Real.sin (degreesToRadians q.Lat) +
            Real.cos (degreesToRadians p.Lat) * Real.cos (degreesToRadians q.Lat) *
              Real.cos (degreesToRadians q.Lon - degreesToRadians p.Lon))) ∧
    0 ≤ Real.arccos
          (Real.sin (degreesToRadians p.Lat) * Real.sin (degreesToRadians q.Lat) +
            Real.cos (degreesToRadians p.Lat) * Real.cos (degreesToRadians q.Lat) *
              Real.cos (degreesToRadians q.Lon - degreesToRadians p.Lon)) ∧
    Real.arccos
          (Real.sin (degreesToRadians p.Lat) * Real.sin (degreesToRadians q.Lat) +
            Real.cos (degreesToRadians p.Lat) * Real.cos (degreesToRadians q.Lat) *
              Real.cos (degreesToRadians q.Lon - degreesToRadians p.Lon)) ≤ Real.pi ∧
    Real.cos (Real.arccos
          (Real.sin (degreesToRadians p.Lat) * Real.sin (degreesToRadians q.Lat) +
            Real.cos (degreesToRadians p.Lat) * Real.cos (degreesToRadians q.Lat) *
              Real.cos (degreesToRadians q.Lon - degreesToRadians p.Lon))) =
      cartX p * cartX q + cartY p * cartY q + cartZ p * cartZ q := by
  have hdot := cart_dot p q
  have hcos := Real.cos_arccos (neg_one_le_sphereDot p q) (sphereDot_le_one p q)
  rw [← hdot] at hcos
  have h := distanceC_eq_centralAngle p q
  unfold centralAngle sphereDot at h
  unfold sphereDot at hdot
  refine ⟨?_, Real.arccos_nonneg _, Real.arccos_le_pi _, ?_⟩
  · unfold Distance earthRadiusMi earthRaidusKm
    simp only [h]
    ext <;> simp only [] <;> ring
  · rw [← hdot]
    exact hcos

theorem interX_eq (p q : Coord) (f : ℝ) :
    interX p q f = weightA p q f * cartX p + weightB p q f * cartX q := by
  unfold interX cartX
  ring

theorem interY_eq (p q : Coord) (f : ℝ) :
    interY p q f = weightA p q f * cartY p + weightB p q f * cartY q := by
  unfold interY cartY
  ring

theorem interZ_eq (p q : Coord) (f : ℝ) :
    interZ p q f = weightA p q f * cartZ p + weightB p q f * cartZ q := by
  unfold interZ cartZ
  ring

theorem weightA_add {p q : Coord} (f : ℝ) (h : Real.sin (dBetween p q) ≠ 0) :
    weightA p q f + weightB p q f * Real.cos (dBetween p q) =
      Real.cos (f * dBetween p q) := by
  unfold weightA weightB
  have e : (1 - f) * dBetween p q = dBetween p q - f * dBetween p q := by ring
  rw [e, Real.sin_sub]
  field_simp
  ring

theorem weightB_add {p q : Coord} (f : ℝ) (h : Real.sin (dBetween p q) ≠ 0) :
    weightB p q f + weightA p q f * Real.cos (dBetween p q) =
      Real.cos ((1 - f) * dBetween p q) := by
  unfold weightA weightB
  have e : f * dBetween p q = dBetween p q - (1 - f) * dBetween p q := by ring
  rw [e, Real.sin_sub]
  field_simp
  ring

theorem weight_sum {p q : Coord} (f : ℝ) (h : Real.sin (dBetween p q) ≠ 0) :
    weightA p q f * Real.cos (f * dBetween p q) +
      weightB p q f * Real.cos ((1 - f) * dBetween p q) = 1 := by
  unfold weightA weightB
  have e : dBetween p q = (1 - f) * dBetween p q + f * dBetween p q := by ring
  have hs := Real.sin_add ((1 - f) * dBetween p q) (f * dBetween p q)
  rw [← e] at hs
  field_simp
  linarith

theorem inter_norm {p q : Coord} (f : ℝ) (h : Real.sin (dBetween p q) ≠ 0) :
    interX p q f * interX p q f + interY p q f * interY p q f +
      interZ p q f * interZ p q f = 1 := by
  have hp := cart_norm p
  have hq := cart_norm q
  have hd := cart_dot p q
  rw [← cos_dBetween] at hd
  have hA := weightA_add f h
  have hB := weightB_add f h
  have hS := weight_sum f h
  rw [interX_eq, interY_eq, interZ_eq]
  linear_combination weightA p q f * weightA p q f * hp + weightB p q f * weightB p q f * hq +
    2 * weightA p q f * weightB p q f * hd + weightA p q f * hA + weightB p q f * hB + hS

theorem cart_interPoint {p q : Coord} (f : ℝ) (h : Real.sin (dBetween p q) ≠ 0) :
    cartX (interPoint p q f) = interX p q f ∧ cartY (interPoint p q f) = interY p q f ∧
      cartZ (interPoint p q f) = interZ p q f :=
  cart_of_unit (inter_norm f h)

theorem sphereDot_inpoint_interPoint {p q : Coord} (f : ℝ)
    (h : Real.sin (dBetween p q) ≠ 0) :
    sphereDot p (interPoint p q f) = Real.cos (f * dBetween p q) := by
  obtain ⟨hx, hy, hz⟩ := cart_interPoint f h
  have hp := cart_norm p
  have hd := cart_dot p q
  rw [← cos_dBetween] at hd
  rw [← cart_dot, hx, hy, hz, interX_eq, interY_eq, interZ_eq, ← weightA_add f h]
  linear_combination weightA p q f * hp + weightB p q f * hd

theorem sphereDot_interPoint_point {p q : Coord} (f : ℝ)
    (h : Real.sin (dBetween p q) ≠ 0) :
    sphereDot (interPoint p q f) q = Real.cos ((1 - f) * dBetween p q) := by
  obtain ⟨hx, hy, hz⟩ := cart_interPoint f h
  have hq := cart_norm q
  have hd := cart_dot p q
  rw [← cos_dBetween] at hd
  rw [← cart_dot, hx, hy, hz, interX_eq, interY_eq, interZ_eq, ← weightB_add f h]
  linear_combination weightB p q f * hq + weightA p q f * hd

theorem sin_dBetween_ne_zero {p q : Coord} (h0 : 0 < dBetween p q)
    (h1 : dBetween p q < Real.pi) : Real.sin (dBetween p q) ≠ 0 :=
  (Real.sin_pos_of_pos_of_lt_pi h0 h1).ne.symm

/-! ## Claims on `IntermediatePointTo` -/

/-- C2, as amended: in exact real arithmetic, when the two points are neither
coincident nor antipodal (`0 < dBetween < π`) and `0 ≤ f ≤ 1`, the call
`from.IntermediatePointTo(to, f)` returns a point `r` at fraction `f` of the arc:
`Distance(from, r)` is `f * Distance(from, to)` and `Distance(r, to)` is
`(1 - f) * Distance(from, to)`, in miles and in kilometers. -/
theorem IntermediatePointTo_fraction (p q : Coord) (f : ℝ)
    (hd0 : 0 < dBetween p q) (hd1 : dBetween p q < Real.pi) (hf0 : 0 ≤ f) (hf1 : f ≤ 1) :
    ∃ r, IntermediatePointTo p q f = some r ∧
      (Distance p r).1 = f * (Distance p q).1 ∧ (Distance p r).2 = f * (Distance p q).2 ∧
      (Distance r q).1 = (1 - f) * (Distance p q).1 ∧
      (Distance r q).2 = (1 - f) * (Distance p q).2 := by
  have hs := sin_dBetween_ne_zero hd0 hd1
  have hfd0 : 0 ≤ f * dBetween p q := mul_nonneg hf0 hd0.le
  have hfd1 : f * dBetween p q ≤ Real.pi := by nlinarith
  have hgd0 : 0 ≤ (1 - f) * dBetween p q := mul_nonneg (by linarith) hd0.le
  have hgd1 : (1 - f) * dBetween p q ≤ Real.pi := by nlinarith
  have e1 : distanceC p (interPoint p q f) = f * distanceC p q := by
    rw [distanceC_eq_centralAngle, ← dBetween_eq_distanceC]
    unfold centralAngle
    rw [sphereDot_inpoint_interPoint f hs, Real.arccos_cos hfd0 hfd1]
  have e2 : distanceC (interPoint p q f) q = (1 - f) * distanceC p q := by
    rw [distanceC_eq_centralAngle, ← dBetween_eq_distanceC]
    unfold centralAngle
    rw [sphereDot_interPoint_point f hs, Real.arccos_cos hgd0 hgd1]
  refine ⟨interPoint p q f, IntermediatePointTo_of_sin_ne_zero f hs, ?_, ?_, ?_, ?_⟩
  · unfold Distance
    simp only [e1]
    ring
  · unfold Distance
    simp only [e1]
    ring
  · unfold Distance
    simp only [e2]
    ring
  · unfold Distance
    simp only [e2]
    ring

theorem dBetween_eq_arccos (p q : Coord) : dBetween p q = Real.arccos (sphereDot p q) := by
  rw [dBetween_eq_distanceC, distanceC_eq_centralAngle]
  rfl

theorem dBetween_equator_quarter : dBetween ⟨0, 0⟩ ⟨0, 90⟩ = Real.pi / 2 := by
  rw [dBetween_eq_arccos]
  unfold sphereDot degreesToRadians
  have e : (90 : ℝ) * Real.pi / 180 - 0 = Real.pi / 2 := by ring
  simp only [zero_mul, zero_div, Real.sin_zero, Real.cos_zero, e, Real.cos_pi_div_two,
    mul_zero, mul_one, add_zero, Real.arccos_zero]

/-- Witness for C2 as amended: the quarter of the equator from `{0, 0}` to
`{0, 90}` at fraction `1/2`. -/
theorem IntermediatePointTo_fraction_witness :
    (0 < dBetween ⟨0, 0⟩ ⟨0, 90⟩ ∧ dBetween ⟨0, 0⟩ ⟨0, 90⟩ < Real.pi) ∧
    ∃ r, IntermediatePointTo ⟨0, 0⟩ ⟨0, 90⟩ (1 / 2) = some r ∧
      (Distance ⟨0, 0⟩ r).1 = 1 / 2 * (Distance ⟨0, 0⟩ ⟨0, 90⟩).1 ∧
      (Distance ⟨0, 0⟩ r).2 = 1 / 2 * (Distance ⟨0, 0⟩ ⟨0, 90⟩).2 ∧
      (Distance r ⟨0, 90⟩).1 = (1 - 1 / 2) * (Distance ⟨0, 0⟩ ⟨0, 90⟩).1 ∧
      (Distance r ⟨0, 90⟩).2 = (1 - 1 / 2) * (Distance ⟨0, 0⟩ ⟨0, 90⟩).2 := by
  have h0 : 0 < dBetween ⟨0, 0⟩ ⟨0, 90⟩ := by
    rw [dBetween_equator_quarter]
    exact div_pos Real.pi_pos two_pos
  have h1 : dBetween ⟨0, 0⟩ ⟨0, 90⟩ < Real.pi := by
    rw [dBetween_equator_quarter]
    exact div_two_lt_of_pos Real.pi_pos
  exact ⟨⟨h0, h1⟩,
    IntermediatePointTo_fraction ⟨0, 0⟩ ⟨0, 90⟩ (1 / 2) h0 h1 (by norm_num) (by norm_num)⟩

/-! ## The endpoints of the interpolation -/

theorem weightA_zero {p q : Coord} (h : Real.sin (dBetween p q) ≠ 0) :
    weightA p q 0 = 1 := by
  unfold weightA
  rw [sub_zero, one_mul]
  exact div_self h

theorem weightB_zero (p q : Coord) : weightB p q 0 = 0 := by
  unfold weightB
  rw [zero_mul, Real.sin_zero, zero_div]

theorem weightA_one (p q : Coord) : weightA p q 1 = 0 := by
  unfold weightA
  rw [sub_self, zero_mul, Real.sin_zero, zero_div]

theorem weightB_one {p q : Coord} (h : Real.sin (dBetween p q) ≠ 0) :
    weightB p q 1 = 1 := by
  unfold weightB
  rw [one_mul]
  exact div_self h

/-- The coordinate that lines 72 to 77 compute from the unit vector of `c`. -/
theorem interPoint_zero {p q : Coord} (h : Real.sin (dBetween p q) ≠ 0) :
    interPoint p q 0 =
      ⟨radiansToDegrees (atan2 (cartZ p) (Real.sqrt (cartX p * cartX p + cartY p * cartY p))),
        radiansToDegrees (atan2 (cartY p) (cartX p))⟩ := by
  unfold interPoint
  rw [interX_eq, interY_eq, interZ_eq, weightA_zero h, weightB_zero]
  simp only [one_mul, zero_mul, add_zero]

theorem interPoint_one {p q : Coord} (h : Real.sin (dBetween p q) ≠ 0) :
    interPoint p q 1 =
      ⟨radiansToDegrees (atan2 (cartZ q) (Real.sqrt (cartX q * cartX q + cartY q * cartY q))),
        radiansToDegrees (atan2 (cartY q) (cartX q))⟩ := by
  unfold interPoint
  rw [interX_eq, interY_eq, interZ_eq, weightA_one, weightB_one h]
  simp only [one_mul, zero_mul, zero_add]

/-- A coordinate in range is recovered from its unit vector. -/
theorem latlon_of_cart (c : Coord) (h1 : -90 < c.Lat) (h2 : c.Lat < 90)
    (h3 : -180 < c.Lon) (h4 : c.Lon ≤ 180) :
    (⟨radiansToDegrees (atan2 (cartZ c) (Real.sqrt (cartX c * cartX c + cartY c * cartY c))),
        radiansToDegrees (atan2 (cartY c) (cartX c))⟩ : Coord) = c := by
  have hpi := Real.pi_pos
  have hlat1 : -(Real.pi / 2) < degreesToRadians c.Lat := by
    unfold degreesToRadians
    nlinarith
  have hlat2 : degreesToRadians c.Lat < Real.pi / 2 := by
    unfold degreesToRadians
    nlinarith
  have hlon1 : -Real.pi < degreesToRadians c.Lon := by
    unfold degreesToRadians
    nlinarith
  have hlon2 : degreesToRadians c.Lon ≤ Real.pi := by
    unfold degreesToRadians
    nlinarith
  have hcos : 0 < Real.cos (degreesToRadians c.Lat) := Real.cos_pos_of_mem_Ioo ⟨hlat1, hlat2⟩
  have hsq : Real.sqrt (cartX c * cartX c + cartY c * cartY c) =
      Real.cos (degreesToRadians c.Lat) := by
    have e : cartX c * cartX c + cartY c * cartY c =
        Real.cos (degreesToRadians c.Lat) * Real.cos (degreesToRadians c.Lat) := by
      unfold cartX cartY
      have h := Real.sin_sq_add_cos_sq (degreesToRadians c.Lon)
      linear_combination Real.cos (degreesToRadians c.Lat) ^ 2 * h
    rw [e, Real.sqrt_mul_self hcos.le]
  have hlat : atan2 (cartZ c) (Real.sqrt (cartX c * cartX c + cartY c * cartY c)) =
      degreesToRadians c.Lat := by
    rw [hsq]
    have h := atan2_polar (r := 1) (t := degreesToRadians c.Lat) one_pos
      (by linarith) (by linarith)
    rwa [one_mul, one_mul] at h
  have hlon : atan2 (cartY c) (cartX c) = degreesToRadians c.Lon :=
    atan2_polar hcos hlon1 hlon2
  rw [hlat, hlon, radiansToDegrees_degreesToRadians, radiansToDegrees_degreesToRadians]

theorem IntermediatePointTo_zero_eq {p q : Coord} (h : Real.sin (dBetween p q) ≠ 0)
    (h1 : -90 < p.Lat) (h2 : p.Lat < 90) (h3 : -180 < p.Lon) (h4 : p.Lon ≤ 180) :
    IntermediatePointTo p q 0 = some p := by
  rw [IntermediatePointTo_of_sin_ne_zero 0 h, interPoint_zero h, latlon_of_cart p h1 h2 h3 h4]

theorem IntermediatePointTo_one_eq {p q : Coord} (h : Real.sin (dBetween p q) ≠ 0)
    (h1 : -90 < q.Lat) (h2 : q.Lat < 90) (h3 : -180 < q.Lon) (h4 : q.Lon ≤ 180) :
    IntermediatePointTo p q 1 = some q := by
  rw [IntermediatePointTo_of_sin_ne_zero 1 h, interPoint_one h, latlon_of_cart q h1 h2 h3 h4]

theorem cos_270 : Real.cos (270 * Real.pi / 180) = 0 := by
  have e : (270 : ℝ) * Real.pi / 180 = Real.pi / 2 + Real.pi := by ring
  rw [e, Real.cos_add_pi, Real.cos_pi_div_two, neg_zero]

theorem sin_270 : Real.sin (270 * Real.pi / 180) = -1 := by
  have e : (270 : ℝ) * Real.pi / 180 = Real.pi / 2 + Real.pi := by ring
  rw [e, Real.sin_add_pi, Real.sin_pi_div_two]

theorem dBetween_equator_270 : dBetween ⟨0, 0⟩ ⟨0, 270⟩ = Real.pi / 2 := by
  rw [dBetween_eq_arccos]
  unfold sphereDot degreesToRadians
  simp only [zero_mul, zero_div, Real.sin_zero, Real.cos_zero, sub_zero, cos_270,
    mul_zero, add_zero, Real.arccos_zero]

/-! ## Continuity in the fraction -/

theorem atan2_eq_arcsin {z r : ℝ} (hr : 0 ≤ r) (h : r * r + z * z = 1) :
    atan2 z r = Real.arcsin z := by
  have hpi := Real.pi_pos
  have hz1 : -1 ≤ z := by nlinarith
  have hz2 : z ≤ 1 := by nlinarith
  have hsin : Real.sin (Real.arcsin z) = z := Real.sin_arcsin hz1 hz2
  have hcos : Real.cos (Real.arcsin z) = r := by
    rw [Real.cos_arcsin]
    have e : 1 - z ^ 2 = r * r := by linear_combination (-1 : ℝ) * h
    rw [e, Real.sqrt_mul_self hr]
  have h1 := Real.neg_pi_div_two_le_arcsin z
  have h2 := Real.arcsin_le_pi_div_two z
  have hp := atan2_polar (r := 1) (t := Real.arcsin z) one_pos (by linarith) (by linarith)
  rwa [one_mul, one_mul, hsin, hcos] at hp

theorem interPoint_Lat {p q : Coord} (f : ℝ) (h : Real.sin (dBetween p q) ≠ 0) :
    (interPoint p q f).Lat = radiansToDegrees (Real.arcsin (interZ p q f)) := by
  unfold interPoint
  simp only []
  rw [atan2_eq_arcsin (Real.sqrt_nonneg _)]
  rw [Real.mul_self_sqrt (add_nonneg (mul_self_nonneg _) (mul_self_nonneg _))]
  exact inter_norm f h

theorem interPoint_Lon (p q : Coord) (f : ℝ) :
    (interPoint p q f).Lon =
      radiansToDegrees (Complex.arg (↑(interX p q f) + ↑(interY p q f) * Complex.I)) := by
  unfold interPoint
  simp only []
  rw [atan2_eq_arg, Complex.mk_eq_add_mul_I]

theorem continuous_weightA (p q : Coord) : Continuous (fun f => weightA p q f) := by
  unfold weightA
  fun_prop

theorem continuous_weightB (p q : Coord) : Continuous (fun f => weightB p q f) := by
  unfold weightB
  fun_prop

theorem continuous_interX (p q : Coord) : Continuous (fun f => interX p q f) := by
  have hA := continuous_weightA p q
  have hB := continuous_weightB p q
  unfold interX
  fun_prop

theorem continuous_interY (p q : Coord) : Continuous (fun f => interY p q f) := by
  have hA := continuous_weightA p q
  have hB := continuous_weightB p q
  unfold interY
  fun_prop

theorem continuous_interZ (p q : Coord) : Continuous (fun f => interZ p q f) := by
  have hA := continuous_weightA p q
  have hB := continuous_weightB p q
  unfold interZ
  fun_prop

theorem continuous_radiansToDegrees : Continuous radiansToDegrees := by
  unfold radiansToDegrees
  fun_prop

theorem continuous_interPoint_Lat {p q : Coord} (h : Real.sin (dBetween p q) ≠ 0) :
    Continuous (fun f => (interPoint p q f).Lat) := by
  have e : (fun f => (interPoint p q f).Lat) =
      fun f => radiansToDegrees (Real.arcsin (interZ p q f)) :=
    funext fun f => interPoint_Lat f h
  rw [e]
  exact continuous_radiansToDegrees.comp (Real.continuous_arcsin.comp (continuous_interZ p q))

theorem radiansToDegrees_pi : radiansToDegrees Real.pi = 180 := by
  unfold radiansToDegrees
  field_simp

theorem radiansToDegrees_pi_div_two : radiansToDegrees (Real.pi / 2) = 90 := by
  unfold radiansToDegrees
  field_simp
  ring

theorem atan2_zero_neg {x : ℝ} (hx : x < 0) : atan2 0 x = Real.pi := by
  unfold atan2
  rw [if_pos rfl, if_neg (not_le.mpr hx)]

theorem inter_mem_slitPlane {p q : Coord} (h : Real.sin (dBetween p q) ≠ 0)
    (f0 : ℝ) (h180 : (interPoint p q f0).Lon ≠ 180) (h90 : (interPoint p q f0).Lat ≠ 90)
    (hm90 : (interPoint p q f0).Lat ≠ -90) :
    0 < interX p q f0 ∨ interY p q f0 ≠ 0 := by
  by_contra hcon
  rw [not_or, not_lt, not_not] at hcon
  obtain ⟨hx, hy⟩ := hcon
  rcases eq_or_lt_of_le hx with hx0 | hxn
  · have hn := inter_norm f0 h
    rw [hx0, hy] at hn
    have hz : interZ p q f0 = 1 ∨ interZ p q f0 = -1 := by
      have : (interZ p q f0 - 1) * (interZ p q f0 + 1) = 0 := by linear_combination hn
      rcases mul_eq_zero.mp this with h1 | h1
      · left; linarith
      · right; linarith
    rw [interPoint_Lat f0 h] at h90 hm90
    rcases hz with hz | hz
    · rw [hz, Real.arcsin_one, radiansToDegrees_pi_div_two] at h90
      exact h90 rfl
    · rw [hz, Real.arcsin_neg_one] at hm90
      apply hm90
      unfold radiansToDegrees
      field_simp
      ring
  · apply h180
    unfold interPoint
    simp only []
    rw [hy, atan2_zero_neg hxn, radiansToDegrees_pi]

theorem continuousAt_interPoint_Lon {p q : Coord} (h : Real.sin (dBetween p q) ≠ 0)
    (f0 : ℝ) (h180 : (interPoint p q f0).Lon ≠ 180) (h90 : (interPoint p q f0).Lat ≠ 90)
    (hm90 : (interPoint p q f0).Lat ≠ -90) :
    ContinuousAt (fun f => (interPoint p q f).Lon) f0 := by
  have e : (fun f => (interPoint p q f).Lon) = fun f =>
      radiansToDegrees (Complex.arg (↑(interX p q f) + ↑(interY p q f) * Complex.I)) :=
    funext fun f => interPoint_Lon p q f
  rw [e]
  have hslit : (↑(interX p q f0) + ↑(interY p q f0) * Complex.I : ℂ) ∈ Complex.slitPlane := by
    rw [Complex.mem_slitPlane_iff]
    simpa using inter_mem_slitPlane h f0 h180 h90 hm90
  have hX := continuous_interX p q
  have hY := continuous_interY p q
  have hcont : Continuous (fun f => (↑(interX p q f) + ↑(interY p q f) * Complex.I : ℂ)) := by
    fun_prop
  have h2 : Filter.Tendsto (fun f => (↑(interX p q f) + ↑(interY p q f) * Complex.I : ℂ))
      (nhds f0) (nhds (↑(interX p q f0) + ↑(interY p q f0) * Complex.I : ℂ)) :=
    hcont.tendsto f0
  have harg : ContinuousAt
      (fun f => Complex.arg (↑(interX p q f) + ↑(interY p q f) * Complex.I)) f0 :=
    Filter.Tendsto.comp (Complex.continuousAt_arg hslit) h2
  exact Filter.Tendsto.comp (continuous_radiansToDegrees.tendsto _) harg

/-- C8, as amended: when the weights are defined (`sin dBetween ≠ 0`), the
latitude of `from.IntermediatePointTo(to, f)` is continuous in `f` (on all of
`ℝ`, in particular on `[0, 1]`), and the longitude is continuous at every `f`
where the returned point is neither on the antimeridian (longitude `180`) nor a
pole (latitude `90` or `-90`). -/
theorem IntermediatePointTo_continuous (p q : Coord)
    (hs : Real.sin (dBetween p q) ≠ 0) :
    ∃ g : ℝ → Coord, (∀ f, IntermediatePointTo p q f = some (g f)) ∧
      Continuous (fun f => (g f).Lat) ∧
      ∀ f0, (g f0).Lon ≠ 180 → (g f0).Lat ≠ 90 → (g f0).Lat ≠ -90 →
        ContinuousAt (fun f => (g f).Lon) f0 :=
  ⟨fun f => interPoint p q f, fun f => IntermediatePointTo_of_sin_ne_zero f hs,
    continuous_interPoint_Lat hs, fun f0 => continuousAt_interPoint_Lon hs f0⟩

/-- Witness for C8 as amended: the quarter of the equator from `{0, 0}` to
`{0, 90}`. -/
theorem IntermediatePointTo_continuous_witness :
    Real.sin (dBetween ⟨0, 0⟩ ⟨0, 90⟩) ≠ 0 ∧
    ∃ g : ℝ → Coord, (∀ f, IntermediatePointTo ⟨0, 0⟩ ⟨0, 90⟩ f = some (g f)) ∧
      Continuous (fun f => (g f).Lat) ∧
      ∀ f0, (g f0).Lon ≠ 180 → (g f0).Lat ≠ 90 → (g f0).Lat ≠ -90 →
        ContinuousAt (fun f => (g f).Lon) f0 := by
  have hs : Real.sin (dBetween ⟨0, 0⟩ ⟨0, 90⟩) ≠ 0 := by
    rw [dBetween_equator_quarter, Real.sin_pi_div_two]
    exact one_ne_zero
  exact ⟨hs, IntermediatePointTo_continuous ⟨0, 0⟩ ⟨0, 90⟩ hs⟩

theorem atan2_neg_of_neg {y : ℝ} (x : ℝ) (hy : y < 0) : atan2 y x < 0 := by
  rw [atan2_eq_arg, Complex.arg_neg_iff]
  exact hy

theorem radiansToDegrees_neg_of_neg {t : ℝ} (ht : t < 0) : radiansToDegrees t < 0 := by
  unfold radiansToDegrees
  exact div_neg_of_neg_of_pos (by linarith) Real.pi_pos

theorem degreesToRadians_135 : degreesToRadians 135 = Real.pi - Real.pi / 4 := by
  unfold degreesToRadians
  ring

theorem degreesToRadians_neg_135 : degreesToRadians (-135) = -(Real.pi - Real.pi / 4) := by
  unfold degreesToRadians
  ring

theorem degreesToRadians_zero : degreesToRadians 0 = 0 := by
  unfold degreesToRadians
  simp

theorem dBetween_across_antimeridian : dBetween ⟨0, 135⟩ ⟨0, -135⟩ = Real.pi / 2 := by
  rw [dBetween_eq_arccos]
  unfold sphereDot
  simp only [degreesToRadians_zero, degreesToRadians_135, degreesToRadians_neg_135]
  have e : -(Real.pi - Real.pi / 4) - (Real.pi - Real.pi / 4) = -(Real.pi / 2 + Real.pi) := by
    ring
  rw [e, Real.cos_neg, Real.cos_add_pi, Real.cos_pi_div_two]
  simp

theorem sin_dBetween_across_antimeridian :
    Real.sin (dBetween ⟨0, 135⟩ ⟨0, -135⟩) ≠ 0 := by
  rw [dBetween_across_antimeridian, Real.sin_pi_div_two]
  exact one_ne_zero

theorem interY_across_antimeridian (f : ℝ) :
    interY ⟨0, 135⟩ ⟨0, -135⟩ f =
      (Real.sin ((1 - f) * (Real.pi / 2)) - Real.sin (f * (Real.pi / 2))) * (√2 / 2) := by
  unfold interY weightA weightB
  simp only [degreesToRadians_zero, degreesToRadians_135, degreesToRadians_neg_135,
    dBetween_across_antimeridian, Real.sin_pi_div_two, Real.cos_zero, Real.sin_neg,
    Real.sin_pi_sub, Real.sin_pi_div_four]
  ring

theorem interX_across_antimeridian (f : ℝ) :
    interX ⟨0, 135⟩ ⟨0, -135⟩ f =
      -((Real.sin ((1 - f) * (Real.pi / 2)) + Real.sin (f * (Real.pi / 2))) * (√2 / 2)) := by
  unfold interX weightA weightB
  simp only [degreesToRadians_zero, degreesToRadians_135, degreesToRadians_neg_135,
    dBetween_across_antimeridian, Real.sin_pi_div_two, Real.cos_zero, Real.cos_neg,
    Real.cos_pi_sub, Real.cos_pi_div_four]
  ring

theorem Lon_half_across_antimeridian :
    (interPoint ⟨0, 135⟩ ⟨0, -135⟩ (1 / 2)).Lon = 180 := by
  have hy : interY ⟨0, 135⟩ ⟨0, -135⟩ (1 / 2) = 0 := by
    rw [interY_across_antimeridian]
    have e : (1 - 1 / 2 : ℝ) * (Real.pi / 2) = 1 / 2 * (Real.pi / 2) := by ring
    rw [e, sub_self, zero_mul]
  have hx : interX ⟨0, 135⟩ ⟨0, -135⟩ (1 / 2) < 0 := by
    rw [interX_across_antimeridian]
    have e : (1 - 1 / 2 : ℝ) * (Real.pi / 2) = Real.pi / 4 := by ring
    have e2 : (1 / 2 : ℝ) * (Real.pi / 2) = Real.pi / 4 := by ring
    rw [e, e2, Real.sin_pi_div_four]
    have h2 : (0 : ℝ) < √2 := Real.sqrt_pos.mpr two_pos
    nlinarith
  unfold interPoint
  simp only []
  rw [hy, atan2_zero_neg hx, radiansToDegrees_pi]

theorem Lon_neg_across_antimeridian {f : ℝ} (h1 : 1 / 2 < f) (h2 : f ≤ 1) :
    (interPoint ⟨0, 135⟩ ⟨0, -135⟩ f).Lon < 0 := by
  have hpi := Real.pi_pos
  have hy : interY ⟨0, 135⟩ ⟨0, -135⟩ f < 0 := by
    rw [interY_across_antimeridian]
    have hlt : Real.sin ((1 - f) * (Real.pi / 2)) < Real.sin (f * (Real.pi / 2)) :=
      Real.sin_lt_sin_of_lt_of_le_pi_div_two (by nlinarith) (by nlinarith) (by nlinarith)
    have h2 : (0 : ℝ) < √2 := Real.sqrt_pos.mpr two_pos
    nlinarith
  unfold interPoint
  simp only []
  exact radiansToDegrees_neg_of_neg (atan2_neg_of_neg _ hy)

/-- Counterexample to C8 as stated: from `{0, 135}` to `{0, -135}` the
separation is not zero, the longitude returned at `f = 1/2` is `180` and the
longitude returned at every `f` in `(1/2, 1]` is negative, so the longitude is
not continuous in `f` on `[0, 1]`. -/
theorem IntermediatePointTo_lon_jump :
    dBetween ⟨0, 135⟩ ⟨0, -135⟩ ≠ 0 ∧
    (∃ r, IntermediatePointTo ⟨0, 135⟩ ⟨0, -135⟩ (1 / 2) = some r ∧ r.Lon = 180) ∧
    (∀ f : ℝ, 1 / 2 < f → f ≤ 1 →
      ∃ r, IntermediatePointTo ⟨0, 135⟩ ⟨0, -135⟩ f = some r ∧ r.Lon < 0) ∧
    ¬ ∃ g : ℝ → Coord,
      (∀ f ∈ Set.Icc (0 : ℝ) 1, IntermediatePointTo ⟨0, 135⟩ ⟨0, -135⟩ f = some (g f)) ∧
      ContinuousOn (fun f => (g f).Lon) (Set.Icc 0 1) := by
  have hs := sin_dBetween_across_antimeridian
  refine ⟨?_, ?_, ?_, ?_⟩
  · rw [dBetween_across_antimeridian]
    exact (div_pos Real.pi_pos two_pos).ne.symm
  · exact ⟨_, IntermediatePointTo_of_sin_ne_zero _ hs, Lon_half_across_antimeridian⟩
  · intro f h1 h2
    exact ⟨_, IntermediatePointTo_of_sin_ne_zero f hs, Lon_neg_across_antimeridian h1 h2⟩
  · rintro ⟨g, hg, hc⟩
    have hval : ∀ f ∈ Set.Icc (0 : ℝ) 1, g f = interPoint ⟨0, 135⟩ ⟨0, -135⟩ f := by
      intro f hf
      have h1 := hg f hf
      rw [IntermediatePointTo_of_sin_ne_zero f hs] at h1
      exact (Option.some.inj h1).symm
    have hmem : (1 / 2 : ℝ) ∈ Set.Icc (0 : ℝ) 1 := ⟨by norm_num, by norm_num⟩
    have hca := hc (1 / 2) hmem
    rw [Metric.continuousWithinAt_iff] at hca
    obtain ⟨δ, hδ, hball⟩ := hca 90 (by norm_num)
    have hx1 : (1 / 2 : ℝ) < 1 / 2 + min (δ / 2) (1 / 2) := by
      have : 0 < min (δ / 2) (1 / 2) := lt_min (by linarith) (by norm_num)
      linarith
    have hx2 : 1 / 2 + min (δ / 2) (1 / 2) ≤ (1 : ℝ) := by
      have : min (δ / 2) (1 / 2) ≤ 1 / 2 := min_le_right _ _
      linarith
    have hxm : 1 / 2 + min (δ / 2) (1 / 2) ∈ Set.Icc (0 : ℝ) 1 := ⟨by linarith, hx2⟩
    have hdist : dist (1 / 2 + min (δ / 2) (1 / 2)) (1 / 2 : ℝ) < δ := by
      rw [Real.dist_eq]
      have h3 : min (δ / 2) (1 / 2) ≤ δ / 2 := min_le_left _ _
      rw [abs_lt]
      constructor <;> linarith
    have hb := hball hxm hdist
    simp only [] at hb
    rw [hval _ hxm, hval _ hmem, Lon_half_across_antimeridian, Real.dist_eq, abs_lt] at hb
    have hneg := Lon_neg_across_antimeridian hx1 hx2
    linarith [hb.1]

/-! ## The scenario of the specification -/

theorem sin_between (x lo hi : ℝ) (hlo : 0 < lo) (h1 : lo ≤ x) (h2 : x ≤ hi) (h3 : hi ≤ 1) :
    lo - hi ^ 3 / 4 ≤ Real.sin x ∧ Real.sin x ≤ hi := by
  have hx0 : 0 < x := lt_of_lt_of_le hlo h1
  have hup : Real.sin x < x := Real.sin_lt hx0
  have hdn : x - x ^ 3 / 4 < Real.sin x := Real.sin_gt_sub_cube hx0 (le_trans h2 h3)
  have hcube : x ^ 3 ≤ hi ^ 3 := pow_le_pow_left₀ hx0.le h2 3
  constructor <;> linarith

theorem sin_sq_between (x lo hi : ℝ) (hlo : 0 < lo) (h1 : lo ≤ x) (h2 : x ≤ hi) (h3 : hi ≤ 1)
    (h4 : 0 ≤ lo - hi ^ 3 / 4) :
    (lo - hi ^ 3 / 4) ^ 2 ≤ Real.sin x ^ 2 ∧ Real.sin x ^ 2 ≤ hi ^ 2 := by
  obtain ⟨ha, hb⟩ := sin_between x lo hi hlo h1 h2 h3
  exact ⟨pow_le_pow_left₀ h4 ha 2, pow_le_pow_left₀ (le_trans h4 ha) hb 2⟩

theorem cos_two_mul_between (x lo hi : ℝ) (hlo : 0 < lo) (h1 : lo ≤ x) (h2 : x ≤ hi)
    (h3 : hi ≤ 1) (h4 : 0 ≤ lo - hi ^ 3 / 4) :
    1 - 2 * hi ^ 2 ≤ Real.cos (2 * x) ∧ Real.cos (2 * x) ≤ 1 - 2 * (lo - hi ^ 3 / 4) ^ 2 := by
  obtain ⟨ha, hb⟩ := sin_sq_between x lo hi hlo h1 h2 h3 h4
  have e : Real.cos (2 * x) = 1 - 2 * Real.sin x ^ 2 := by
    rw [Real.cos_two_mul, Real.cos_sq']
    ring
  rw [e]
  constructor <;> linarith

/-- Bounds on the angle `2 * atan2 (√a) (√(1 - a))` from bounds on `a`. -/
theorem two_atan2_sqrt_between {a L U : ℝ} (ha0 : 0 ≤ a) (ha1 : a ≤ 1)
    (hL2 : L ≤ 2) (hU0 : 0 < U) (hU2 : U ≤ 2) (h1 : (L / 2) ^ 2 ≤ a)
    (h2 : a ≤ (U / 2 - (U / 2) ^ 3 / 4) ^ 2) (h3 : 0 ≤ U / 2 - (U / 2) ^ 3 / 4) :
    L ≤ 2 * atan2 (Real.sqrt a) (Real.sqrt (1 - a)) ∧
      2 * atan2 (Real.sqrt a) (Real.sqrt (1 - a)) ≤ U := by
  have hpi := Real.pi_gt_three
  rw [two_atan2_sqrt ha0 ha1]
  have hc0 := Real.arccos_nonneg (1 - 2 * a)
  have hc1 := Real.arccos_le_pi (1 - 2 * a)
  have hcos : Real.cos (Real.arccos (1 - 2 * a)) = 1 - 2 * a :=
    Real.cos_arccos (by linarith) (by linarith)
  constructor
  · by_contra hlt
    rw [not_le] at hlt
    have hc := Real.cos_lt_cos_of_nonneg_of_le_pi hc0 (by linarith) hlt
    have hb := Real.one_sub_sq_div_two_le_cos (x := L)
    rw [hcos] at hc
    nlinarith
  · by_contra hlt
    rw [not_le] at hlt
    have hc := Real.cos_lt_cos_of_nonneg_of_le_pi hU0.le hc1 hlt
    rw [hcos] at hc
    have hb := (cos_two_mul_between (U / 2) (U / 2) (U / 2) (by linarith)
      le_rfl le_rfl (by linarith) h3).2
    have e : 2 * (U / 2) = U := by ring
    rw [e] at hb
    linarith

theorem distanceA_scenario :
    distanceA ⟨38.4247, -86.9624⟩ ⟨43.0731, -89.4012⟩ =
      Real.sin (Real.pi * (11621 / 900000)) ^ 2 +
        Real.cos (2 * (Real.pi * (384247 / 3600000))) *
          Real.cos (2 * (Real.pi * (47859 / 400000))) *
          Real.sin (Real.pi * (6097 / 900000)) ^ 2 := by
  unfold distanceA degreesToRadians
  simp only []
  have e1 : ((43.0731 : ℝ) * Real.pi / 180 - 38.4247 * Real.pi / 180) / 2 =
      Real.pi * (11621 / 900000) := by ring
  have e2 : ((-89.4012 : ℝ) * Real.pi / 180 - -86.9624 * Real.pi / 180) / 2 =
      -(Real.pi * (6097 / 900000)) := by ring
  have e3 : (38.4247 : ℝ) * Real.pi / 180 = 2 * (Real.pi * (384247 / 3600000)) := by ring
  have e4 : (43.0731 : ℝ) * Real.pi / 180 = 2 * (Real.pi * (47859 / 400000)) := by ring
  rw [e1, e2, e3, e4, Real.sin_neg, neg_sq]

theorem distanceA_scenario_between :
    0.001895 ≤ distanceA ⟨38.4247, -86.9624⟩ ⟨43.0731, -89.4012⟩ ∧
      distanceA ⟨38.4247, -86.9624⟩ ⟨43.0731, -89.4012⟩ ≤ 0.00191 := by
  have hp1 := Real.pi_gt_d6
  have hp2 := Real.pi_lt_d6
  obtain ⟨s1lo, s1hi⟩ := sin_sq_between (Real.pi * (11621 / 900000)) 0.040564 0.040565 (by norm_num) (by linarith) (by linarith)
    (by norm_num) (by norm_num)
  obtain ⟨s2lo, s2hi⟩ := sin_sq_between (Real.pi * (6097 / 900000)) 0.021282 0.021283 (by norm_num) (by linarith) (by linarith)
    (by norm_num) (by norm_num)
  obtain ⟨c1lo, c1hi⟩ := cos_two_mul_between (Real.pi * (384247 / 3600000)) 0.33531 0.33532 (by norm_num) (by linarith) (by linarith)
    (by norm_num) (by norm_num)
  obtain ⟨c2lo, c2hi⟩ := cos_two_mul_between (Real.pi * (47859 / 400000)) 0.37588 0.37589 (by norm_num) (by linarith) (by linarith)
    (by norm_num) (by norm_num)
  rw [distanceA_scenario]
  generalize Real.sin (Real.pi * (11621 / 900000)) ^ 2 = S1 at *
  generalize Real.sin (Real.pi * (6097 / 900000)) ^ 2 = S2 at *
  generalize Real.cos (2 * (Real.pi * (384247 / 3600000))) = C1 at *
  generalize Real.cos (2 * (Real.pi * (47859 / 400000))) = C2 at *
  have a1 : (0.001644 : ℝ) ≤ S1 := le_trans (by norm_num) s1lo
  have a2 : S1 ≤ 0.001646 := le_trans s1hi (by norm_num)
  have b1 : (0.0004528 : ℝ) ≤ S2 := le_trans (by norm_num) s2lo
  have b2 : S2 ≤ 0.000453 := le_trans s2hi (by norm_num)
  have d1 : (0.7751 : ℝ) ≤ C1 := le_trans (by norm_num) c1lo
  have d2 : C1 ≤ 0.7876 := le_trans c1hi (by norm_num)
  have g1 : (0.7174 : ℝ) ≤ C2 := le_trans (by norm_num) c2lo
  have g2 : C2 ≤ 0.7371 := le_trans c2hi (by norm_num)
  have m1 : (0.7751 : ℝ) * 0.7174 ≤ C1 * C2 :=
    mul_le_mul d1 g1 (by norm_num) (by linarith)
  have m2 : C1 * C2 ≤ 0.7876 * 0.7371 :=
    mul_le_mul d2 g2 (by linarith) (by norm_num)
  have n1 : (0.7751 : ℝ) * 0.7174 * 0.0004528 ≤ C1 * C2 * S2 :=
    mul_le_mul m1 b1 (by norm_num) (by linarith)
  have n2 : C1 * C2 * S2 ≤ 0.7876 * 0.7371 * 0.000453 :=
    mul_le_mul m2 b2 (by linarith) (by norm_num)
  constructor
  · linarith
  · linarith

theorem distanceC_scenario_between :
    554 / 6371 ≤ distanceC ⟨38.4247, -86.9624⟩ ⟨43.0731, -89.4012⟩ ∧
      distanceC ⟨38.4247, -86.9624⟩ ⟨43.0731, -89.4012⟩ ≤ 558 / 6371 := by
  obtain ⟨h1, h2⟩ := distanceA_scenario_between
  unfold distanceC
  simp only []
  exact two_atan2_sqrt_between (distanceA_nonneg _ _) (distanceA_le_one _ _)
    (by norm_num) (by norm_num) (by norm_num)
    (le_trans (by norm_num) h1) (le_trans h2 (by norm_num)) (by norm_num)

/-- C6, as amended: `Distance({38.4247, -86.9624}, {43.0731, -89.4012})`
returns a miles value within `2` of `345` and a kilometers value within `2` of
`556`. -/
theorem Distance_scenario :
    |(Distance ⟨38.4247, -86.9624⟩ ⟨43.0731, -89.4012⟩).1 - 345| ≤ 2 ∧
      |(Distance ⟨38.4247, -86.9624⟩ ⟨43.0731, -89.4012⟩).2 - 556| ≤ 2 := by
  obtain ⟨h1, h2⟩ := distanceC_scenario_between
  unfold Distance earthRadiusMi earthRaidusKm
  simp only []
  rw [abs_le, abs_le]
  refine ⟨⟨?_, ?_⟩, ⟨?_, ?_⟩⟩ <;> linarith

/-- Counterexample to C6 as stated: at the inputs of the scenario `Distance`
returns more than `326` miles and more than `523` kilometers, so the miles are
not within `2` of `324` and the kilometers are not within `2` of `521`. -/
theorem Distance_scenario_not_324 :
    326 < (Distance ⟨38.4247, -86.9624⟩ ⟨43.0731, -89.4012⟩).1 ∧
    523 < (Distance ⟨38.4247, -86.9624⟩ ⟨43.0731, -89.4012⟩).2 ∧
    ¬ |(Distance ⟨38.4247, -86.9624⟩ ⟨43.0731, -89.4012⟩).1 - 324| ≤ 2 ∧
    ¬ |(Distance ⟨38.4247, -86.9624⟩ ⟨43.0731, -89.4012⟩).2 - 521| ≤ 2 := by
  obtain ⟨h1, h2⟩ := distanceC_scenario_between
  unfold Distance earthRadiusMi earthRaidusKm
  simp only []
  refine ⟨by linarith, by linarith, ?_, ?_⟩
  · intro h
    rw [abs_le] at h
    linarith [h.2]
  · intro h
    rw [abs_le] at h
    linarith [h.2]

/-! ## Units, conversions and the two haversine computations -/

/-- C11: the two results of `Distance p q` satisfy
`kilometers * 3958 = miles * 6371`; hence, where the distance is not zero,
`kilometers / miles = 6371 / 3958`. -/
theorem Distance_unit_ratio (p q : Coord) :
    (Distance p q).2 * 3958 = (Distance p q).1 * 6371 ∧
    ((Distance p q).1 ≠ 0 → (Distance p q).2 / (Distance p q).1 = 6371 / 3958) := by
  unfold Distance earthRadiusMi earthRaidusKm
  simp only []
  refine ⟨by ring, fun h => ?_⟩
  have hc : distanceC p q ≠ 0 := fun h0 => h (by rw [h0, zero_mul])
  field_simp
  ring

theorem distanceC_equator_quarter : distanceC ⟨0, 0⟩ ⟨0, 90⟩ = Real.pi / 2 := by
  rw [← dBetween_eq_distanceC, dBetween_equator_quarter]

/-- Witness for C11: from `{0, 0}` to `{0, 90}` the distance is not zero and
the ratio of kilometers to miles is `6371 / 3958`. -/
theorem Distance_unit_ratio_witness :
    (Distance ⟨0, 0⟩ ⟨0, 90⟩).1 ≠ 0 ∧
    (Distance ⟨0, 0⟩ ⟨0, 90⟩).2 / (Distance ⟨0, 0⟩ ⟨0, 90⟩).1 = 6371 / 3958 := by
  have h : (Distance ⟨0, 0⟩ ⟨0, 90⟩).1 ≠ 0 := by
    unfold Distance earthRadiusMi
    simp only []
    rw [distanceC_equator_quarter]
    have := Real.pi_pos
    positivity
  exact ⟨h, (Distance_unit_ratio ⟨0, 0⟩ ⟨0, 90⟩).2 h⟩

/-- C12: `degreesToRadians` and `radiansToDegrees` are mutually inverse,
exactly, hence within the tolerance `1e-9`. -/
theorem degrees_radians_inverse (x : ℝ) :
    radiansToDegrees (degreesToRadians x) = x ∧
    degreesToRadians (radiansToDegrees x) = x ∧
    |radiansToDegrees (degreesToRadians x) - x| ≤ 1e-9 := by
  refine ⟨radiansToDegrees_degreesToRadians x, degreesToRadians_radiansToDegrees x, ?_⟩
  rw [radiansToDegrees_degreesToRadians, sub_self, abs_zero]
  norm_num

/-- In exact real arithmetic, with no restriction on the ranges of latitude
and longitude, the haversine term `a` of `Distance` and the one of
`IntermediatePointTo` lie in `[0, 1]`, and the central angle lies in
`[0, π]`. -/
theorem haversine_term_range (p q : Coord) :
    (0 ≤ distanceA p q ∧ distanceA p q ≤ 1) ∧ (0 ≤ interA p q ∧ interA p q ≤ 1) ∧
    (0 ≤ 1 - distanceA p q ∧ 0 ≤ 1 - interA p q) ∧
    (Real.sqrt (distanceA p q) ^ 2 = distanceA p q ∧
      Real.sqrt (1 - distanceA p q) ^ 2 = 1 - distanceA p q) ∧
    (Real.sqrt (interA p q) ^ 2 = interA p q ∧
      Real.sqrt (1 - interA p q) ^ 2 = 1 - interA p q) ∧
    (0 ≤ distanceC p q ∧ distanceC p q ≤ Real.pi) ∧
    (0 ≤ dBetween p q ∧ dBetween p q ≤ Real.pi) := by
  have h0 := distanceA_nonneg p q
  have h1 := distanceA_le_one p q
  have e := interA_eq_distanceA p q
  have hc0 := distanceC_nonneg p q
  have hc1 := distanceC_le_pi p q
  have ed := dBetween_eq_distanceC p q
  rw [e, ed]
  exact ⟨⟨h0, h1⟩, ⟨h0, h1⟩, ⟨by linarith, by linarith⟩,
    ⟨Real.sq_sqrt h0, Real.sq_sqrt (by linarith)⟩,
    ⟨Real.sq_sqrt h0, Real.sq_sqrt (by linarith)⟩, ⟨hc0, hc1⟩, ⟨hc0, hc1⟩⟩

theorem atan2_zero_nonneg {x : ℝ} (hx : 0 ≤ x) : atan2 0 x = 0 := by
  unfold atan2
  rw [if_pos rfl, if_pos hx]

theorem radiansToDegrees_zero : radiansToDegrees 0 = 0 := by
  unfold radiansToDegrees
  simp

theorem radiansToDegrees_pi_div_four : radiansToDegrees (Real.pi / 4) = 45 := by
  unfold radiansToDegrees
  field_simp
  ring

theorem degreesToRadians_90 : degreesToRadians 90 = Real.pi / 2 := by
  unfold degreesToRadians
  ring

theorem sin_dBetween_equator_quarter : Real.sin (dBetween ⟨0, 0⟩ ⟨0, 90⟩) ≠ 0 := by
  rw [dBetween_equator_quarter, Real.sin_pi_div_two]
  exact one_ne_zero

/-- C13: `{0, 0}.IntermediatePointTo({0, 90}, 0.5)` returns `{0, 45}`. -/
theorem IntermediatePointTo_equator_midpoint :
    IntermediatePointTo ⟨0, 0⟩ ⟨0, 90⟩ 0.5 = some ⟨0, 45⟩ := by
  have hA : weightA ⟨0, 0⟩ ⟨0, 90⟩ 0.5 = √2 / 2 := by
    unfold weightA
    rw [dBetween_equator_quarter, Real.sin_pi_div_two, div_one]
    have e : (1 - 0.5 : ℝ) * (Real.pi / 2) = Real.pi / 4 := by ring
    rw [e, Real.sin_pi_div_four]
  have hB : weightB ⟨0, 0⟩ ⟨0, 90⟩ 0.5 = √2 / 2 := by
    unfold weightB
    rw [dBetween_equator_quarter, Real.sin_pi_div_two, div_one]
    have e : (0.5 : ℝ) * (Real.pi / 2) = Real.pi / 4 := by ring
    rw [e, Real.sin_pi_div_four]
  have hx : interX ⟨0, 0⟩ ⟨0, 90⟩ 0.5 = √2 / 2 := by
    unfold interX
    simp only [hA, hB, degreesToRadians_zero, degreesToRadians_90, Real.cos_zero,
      Real.cos_pi_div_two, mul_one, mul_zero, add_zero]
  have hy : interY ⟨0, 0⟩ ⟨0, 90⟩ 0.5 = √2 / 2 := by
    unfold interY
    simp only [hA, hB, degreesToRadians_zero, degreesToRadians_90, Real.cos_zero,
      Real.sin_zero, Real.sin_pi_div_two, mul_one, mul_zero, zero_add]
  have hz : interZ ⟨0, 0⟩ ⟨0, 90⟩ 0.5 = 0 := by
    unfold interZ
    simp only [degreesToRadians_zero, Real.sin_zero, mul_zero, add_zero]
  have hlon : atan2 (√2 / 2) (√2 / 2) = Real.pi / 4 := by
    have hpi := Real.pi_pos
    have h := atan2_polar (r := 1) (t := Real.pi / 4) one_pos (by linarith) (by linarith)
    rwa [one_mul, one_mul, Real.sin_pi_div_four, Real.cos_pi_div_four] at h
  rw [IntermediatePointTo_of_sin_ne_zero _ sin_dBetween_equator_quarter]
  unfold interPoint
  rw [hx, hy, hz, atan2_zero_nonneg (Real.sqrt_nonneg _), hlon, radiansToDegrees_zero,
    radiansToDegrees_pi_div_four]

theorem distanceC_inpoint_interPoint {p q : Coord} {f : ℝ}
    (hd0 : 0 < dBetween p q) (hd1 : dBetween p q < Real.pi) (hf0 : 0 ≤ f) (hf1 : f ≤ 1) :
    distanceC p (interPoint p q f) = f * dBetween p q := by
  have hs := sin_dBetween_ne_zero hd0 hd1
  have hfd0 : 0 ≤ f * dBetween p q := mul_nonneg hf0 hd0.le
  have hfd1 : f * dBetween p q ≤ Real.pi := by nlinarith
  rw [distanceC_eq_centralAngle]
  unfold centralAngle
  rw [sphereDot_inpoint_interPoint f hs, Real.arccos_cos hfd0 hfd1]

/-- C14, as amended: in exact real arithmetic, when the two points are neither
coincident nor antipodal (`0 < dBetween < π`) and `0 ≤ f1 < f2 ≤ 1`, the
distance from `A` to the interpolated point is strictly smaller at `f1` than at
`f2`, in miles and in kilometers; in particular the points at `0.25`, `0.5` and
`0.75` lie strictly between `A` and `B`, in this order. -/
theorem IntermediatePointTo_strictMono (A B : Coord) (f1 f2 : ℝ)
    (hd0 : 0 < dBetween A B) (hd1 : dBetween A B < Real.pi)
    (h0 : 0 ≤ f1) (h12 : f1 < f2) (h1 : f2 ≤ 1) :
    (∃ r1 r2, IntermediatePointTo A B f1 = some r1 ∧ IntermediatePointTo A B f2 = some r2 ∧
      (Distance A r1).1 < (Distance A r2).1 ∧ (Distance A r1).2 < (Distance A r2).2) ∧
    (∃ r25 r50 r75, IntermediatePointTo A B 0.25 = some r25 ∧
      IntermediatePointTo A B 0.5 = some r50 ∧ IntermediatePointTo A B 0.75 = some r75 ∧
      (0 < (Distance A r25).1 ∧ (Distance A r25).1 < (Distance A r50).1 ∧
        (Distance A r50).1 < (Distance A r75).1 ∧ (Distance A r75).1 < (Distance A B).1) ∧
      (0 < (Distance A r25).2 ∧ (Distance A r25).2 < (Distance A r50).2 ∧
        (Distance A r50).2 < (Distance A r75).2 ∧ (Distance A r75).2 < (Distance A B).2)) := by
  have hs := sin_dBetween_ne_zero hd0 hd1
  have e1 := distanceC_inpoint_interPoint (f := f1) hd0 hd1 h0 (by linarith)
  have e2 := distanceC_inpoint_interPoint (f := f2) hd0 hd1 (by linarith) h1
  have e25 := distanceC_inpoint_interPoint (f := 0.25) hd0 hd1 (by norm_num) (by norm_num)
  have e50 := distanceC_inpoint_interPoint (f := 0.5) hd0 hd1 (by norm_num) (by norm_num)
  have e75 := distanceC_inpoint_interPoint (f := 0.75) hd0 hd1 (by norm_num) (by norm_num)
  have eAB := dBetween_eq_distanceC A B
  have hlt : f1 * dBetween A B < f2 * dBetween A B := mul_lt_mul_of_pos_right h12 hd0
  refine ⟨⟨_, _, IntermediatePointTo_of_sin_ne_zero f1 hs,
    IntermediatePointTo_of_sin_ne_zero f2 hs, ?_, ?_⟩,
    ⟨_, _, _, IntermediatePointTo_of_sin_ne_zero _ hs, IntermediatePointTo_of_sin_ne_zero _ hs,
      IntermediatePointTo_of_sin_ne_zero _ hs, ?_, ?_⟩⟩
  · unfold Distance earthRadiusMi
    simp only [e1, e2]
    linarith
  · unfold Distance earthRaidusKm
    simp only [e1, e2]
    linarith
  · unfold Distance earthRadiusMi
    simp only [e25, e50, e75, ← eAB]
    refine ⟨?_, ?_, ?_, ?_⟩ <;> nlinarith
  · unfold Distance earthRaidusKm
    simp only [e25, e50, e75, ← eAB]
    refine ⟨?_, ?_, ?_, ?_⟩ <;> nlinarith

theorem dBetween_equator_quarter_pos :
    0 < dBetween ⟨0, 0⟩ ⟨0, 90⟩ ∧ dBetween ⟨0, 0⟩ ⟨0, 90⟩ < Real.pi := by
  rw [dBetween_equator_quarter]
  exact ⟨div_pos Real.pi_pos two_pos, div_two_lt_of_pos Real.pi_pos⟩

/-- Witness for C14 as amended: the quarter of the equator from `{0, 0}` to
`{0, 90}`, at the fractions `1/3` and `2/3`. -/
theorem IntermediatePointTo_strictMono_witness :
    (∃ r1 r2, IntermediatePointTo ⟨0, 0⟩ ⟨0, 90⟩ (1 / 3) = some r1 ∧
      IntermediatePointTo ⟨0, 0⟩ ⟨0, 90⟩ (2 / 3) = some r2 ∧
      (Distance ⟨0, 0⟩ r1).1 < (Distance ⟨0, 0⟩ r2).1 ∧
      (Distance ⟨0, 0⟩ r1).2 < (Distance ⟨0, 0⟩ r2).2) ∧
    (∃ r25 r50 r75, IntermediatePointTo ⟨0, 0⟩ ⟨0, 90⟩ 0.25 = some r25 ∧
      IntermediatePointTo ⟨0, 0⟩ ⟨0, 90⟩ 0.5 = some r50 ∧
      IntermediatePointTo ⟨0, 0⟩ ⟨0, 90⟩ 0.75 = some r75 ∧
      (0 < (Distance ⟨0, 0⟩ r25).1 ∧ (Distance ⟨0, 0⟩ r25).1 < (Distance ⟨0, 0⟩ r50).1 ∧
        (Distance ⟨0, 0⟩ r50).1 < (Distance ⟨0, 0⟩ r75).1 ∧
        (Distance ⟨0, 0⟩ r75).1 < (Distance ⟨0, 0⟩ ⟨0, 90⟩).1) ∧
      (0 < (Distance ⟨0, 0⟩ r25).2 ∧ (Distance ⟨0, 0⟩ r25).2 < (Distance ⟨0, 0⟩ r50).2 ∧
        (Distance ⟨0, 0⟩ r50).2 < (Distance ⟨0, 0⟩ r75).2 ∧
        (Distance ⟨0, 0⟩ r75).2 < (Distance ⟨0, 0⟩ ⟨0, 90⟩).2)) :=
  IntermediatePointTo_strictMono ⟨0, 0⟩ ⟨0, 90⟩ (1 / 3) (2 / 3)
    dBetween_equator_quarter_pos.1 dBetween_equator_quarter_pos.2
    (by norm_num) (by norm_num) (by norm_num)

/-- C17: for `A` and `B` with latitude in `(-90, 90)` and longitude in
`(-180, 180]` whose points are neither coincident nor antipodal
(`sin dBetween ≠ 0`), `A.IntermediatePointTo(B, 0)` is `A` and
`A.IntermediatePointTo(B, 1)` is `B`, exactly. -/
theorem IntermediatePointTo_endpoints_exact (A B : Coord)
    (hs : Real.sin (dBetween A B) ≠ 0)
    (hA1 : -90 < A.Lat) (hA2 : A.Lat < 90) (hA3 : -180 < A.Lon) (hA4 : A.Lon ≤ 180)
    (hB1 : -90 < B.Lat) (hB2 : B.Lat < 90) (hB3 : -180 < B.Lon) (hB4 : B.Lon ≤ 180) :
    IntermediatePointTo A B 0 = some A ∧ IntermediatePointTo A B 1 = some B :=
  ⟨IntermediatePointTo_zero_eq hs hA1 hA2 hA3 hA4, IntermediatePointTo_one_eq hs hB1 hB2 hB3 hB4⟩

/-- Witness for C17: `A = {0, 0}` and `B = {0, 90}`. -/
theorem IntermediatePointTo_endpoints_exact_witness :
    Real.sin (dBetween ⟨0, 0⟩ ⟨0, 90⟩) ≠ 0 ∧
    IntermediatePointTo ⟨0, 0⟩ ⟨0, 90⟩ 0 = some ⟨0, 0⟩ ∧
    IntermediatePointTo ⟨0, 0⟩ ⟨0, 90⟩ 1 = some ⟨0, 90⟩ :=
  ⟨sin_dBetween_equator_quarter,
    IntermediatePointTo_endpoints_exact ⟨0, 0⟩ ⟨0, 90⟩ sin_dBetween_equator_quarter
      (by norm_num) (by norm_num) (by norm_num) (by norm_num)
      (by norm_num) (by norm_num) (by norm_num) (by norm_num)⟩

/-! ## Reversal and normalisation -/

theorem dBetween_comm (p q : Coord) : dBetween p q = dBetween q p := by
  rw [dBetween_eq_distanceC, dBetween_eq_distanceC]
  unfold distanceC
  rw [distanceA_comm]

theorem weightA_reverse (p q : Coord) (f : ℝ) : weightA q p (1 - f) = weightB p q f := by
  unfold weightA weightB
  rw [dBetween_comm q p, sub_sub_cancel]

theorem weightB_reverse (p q : Coord) (f : ℝ) : weightB q p (1 - f) = weightA p q f := by
  unfold weightA weightB
  rw [dBetween_comm q p]

theorem interPoint_reverse (p q : Coord) (f : ℝ) :
    interPoint p q f = interPoint q p (1 - f) := by
  have hx : interX p q f = interX q p (1 - f) := by
    unfold interX
    rw [weightA_reverse p q f, weightB_reverse p q f]
    ring
  have hy : interY p q f = interY q p (1 - f) := by
    unfold interY
    rw [weightA_reverse p q f, weightB_reverse p q f]
    ring
  have hz : interZ p q f = interZ q p (1 - f) := by
    unfold interZ
    rw [weightA_reverse p q f, weightB_reverse p q f]
    ring
  unfold interPoint
  rw [hx, hy, hz]

/-- C18: interpolation is symmetric under reversing the endpoints: for all
coordinates `A`, `B` and every fraction `f`, `A.IntermediatePointTo(B, f)` is
`B.IntermediatePointTo(A, 1 - f)` (both have no result when
`sin dBetween = 0`). -/
theorem IntermediatePointTo_reverse (A B : Coord) (f : ℝ) :
    IntermediatePointTo A B f = IntermediatePointTo B A (1 - f) := by
  by_cases hs : Real.sin (dBetween A B) = 0
  · have hs2 : Real.sin (dBetween B A) = 0 := by rwa [dBetween_comm] at hs
    rw [IntermediatePointTo_of_sin_eq_zero f hs, IntermediatePointTo_of_sin_eq_zero _ hs2]
  · have hs2 : Real.sin (dBetween B A) ≠ 0 := by rwa [dBetween_comm] at hs
    rw [IntermediatePointTo_of_sin_ne_zero f hs, IntermediatePointTo_of_sin_ne_zero _ hs2,
      interPoint_reverse]

theorem radiansToDegrees_le {s t : ℝ} (h : s ≤ t) : radiansToDegrees s ≤ radiansToDegrees t := by
  unfold radiansToDegrees
  exact div_le_div_of_nonneg_right (by linarith) Real.pi_pos.le

theorem radiansToDegrees_lt {s t : ℝ} (h : s < t) : radiansToDegrees s < radiansToDegrees t := by
  unfold radiansToDegrees
  exact div_lt_div_of_pos_right (by linarith) Real.pi_pos

theorem radiansToDegrees_neg_pi : radiansToDegrees (-Real.pi) = -180 := by
  unfold radiansToDegrees
  field_simp
  ring

theorem radiansToDegrees_neg_pi_div_two : radiansToDegrees (-(Real.pi / 2)) = -90 := by
  unfold radiansToDegrees
  field_simp
  ring

/-- C19, as amended: in exact real arithmetic, for all input coordinates, in
range or not, and every fraction for which the weights are defined
(`sin dBetween ≠ 0`), the coordinate returned by `IntermediatePointTo` is
normalised: its latitude lies in `[-90, 90]` and its longitude in
`(-180, 180]`. -/
theorem IntermediatePointTo_normalised (p q : Coord) (f : ℝ)
    (hs : Real.sin (dBetween p q) ≠ 0) :
    ∃ r, IntermediatePointTo p q f = some r ∧
      -90 ≤ r.Lat ∧ r.Lat ≤ 90 ∧ -180 < r.Lon ∧ r.Lon ≤ 180 := by
  refine ⟨interPoint p q f, IntermediatePointTo_of_sin_ne_zero f hs, ?_, ?_, ?_, ?_⟩
  · rw [interPoint_Lat f hs, ← radiansToDegrees_neg_pi_div_two]
    exact radiansToDegrees_le (Real.neg_pi_div_two_le_arcsin _)
  · rw [interPoint_Lat f hs, ← radiansToDegrees_pi_div_two]
    exact radiansToDegrees_le (Real.arcsin_le_pi_div_two _)
  · rw [interPoint_Lon, ← radiansToDegrees_neg_pi]
    exact radiansToDegrees_lt (Complex.neg_pi_lt_arg _)
  · rw [interPoint_Lon, ← radiansToDegrees_pi]
    exact radiansToDegrees_le (Complex.arg_le_pi _)

theorem sin_dBetween_equator_270 : Real.sin (dBetween ⟨0, 0⟩ ⟨0, 270⟩) ≠ 0 := by
  rw [dBetween_equator_270, Real.sin_pi_div_two]
  exact one_ne_zero

/-- Witness for C19 as amended: the out-of-range endpoint `{0, 270}`, from
`{0, 0}`, at fraction `1/2`. -/
theorem IntermediatePointTo_normalised_witness :
    Real.sin (dBetween ⟨0, 0⟩ ⟨0, 270⟩) ≠ 0 ∧
    ∃ r, IntermediatePointTo ⟨0, 0⟩ ⟨0, 270⟩ (1 / 2) = some r ∧
      -90 ≤ r.Lat ∧ r.Lat ≤ 90 ∧ -180 < r.Lon ∧ r.Lon ≤ 180 :=
  ⟨sin_dBetween_equator_270,
    IntermediatePointTo_normalised ⟨0, 0⟩ ⟨0, 270⟩ (1 / 2) sin_dBetween_equator_270⟩

/-! ## The program on `float64`, evaluated -/

namespace Float64

set_option maxRecDepth 100000

/-- Values of the `float64` model at inputs of the specification's scenarios:
the distance of the Bloomington to Madison scenario, the midpoint of the
quarter of the equator, identical endpoints, and the arc across the
antimeridian at fraction `0.5`. -/
theorem float_model_scenarios :
    Distance ⟨38.4247, -86.9624⟩ ⟨43.0731, -89.4012⟩ =
      (345.50364263118746, 556.1404010114439) ∧
    IntermediatePointTo ⟨0, 0⟩ ⟨0, 90⟩ 0.5 = ⟨0, 45⟩ ∧
    IntermediatePointTo ⟨10, 10⟩ ⟨10, 10⟩ 0.5 = ⟨F64.nan, F64.nan⟩ ∧
    IntermediatePointTo ⟨0, 135⟩ ⟨0, -135⟩ 0.5 = ⟨0, 180⟩ ∧
    Distance ⟨10, 10⟩ ⟨10, 10⟩ = (0, 0) := by
  decide!

/-- Values of the `float64` model at endpoints of the interpolation: an
out-of-range longitude is returned wrapped, two distinct points that coincide
after rounding give NaN, and a pole, the longitude `-180` and an antipodal pair
are returned as they are. -/
theorem float_model_endpoints :
    IntermediatePointTo ⟨0, 0⟩ ⟨0, 270⟩ 1 = ⟨0, -90.00000000000001⟩ ∧
    IntermediatePointTo ⟨0, 0⟩ ⟨0, 1e-200⟩ 0 = ⟨F64.nan, F64.nan⟩ ∧
    IntermediatePointTo ⟨90, 50⟩ ⟨0, 0⟩ 0 = ⟨90, 50⟩ ∧
    IntermediatePointTo ⟨0, 0⟩ ⟨0, 180⟩ 0 = ⟨0, 0⟩ ∧
    IntermediatePointTo ⟨0, 0⟩ ⟨0, 180⟩ 1 = ⟨0, 180⟩ := by
  decide!

/-- C9, at a failing input: on `float64`, for `P = {10, -126}` the haversine
term of `Distance(P, {-P.Lat, P.Lon + 180})` rounds to `1.0000000000000002`,
`math.Sqrt(1 - a)` is NaN and `Distance` returns `(NaN, NaN)`: the result is
neither `(3958 * π, 6371 * π)` nor at most `π` times the radius. -/
theorem Distance_antipode_float :
    (-126 + 180 : F64) = 54 ∧
    distanceA ⟨10, -126⟩ ⟨-10, -126 + 180⟩ = 1.0000000000000002 ∧
    Distance ⟨10, -126⟩ ⟨-10, -126 + 180⟩ = (F64.nan, F64.nan) ∧
    le (Distance ⟨10, -126⟩ ⟨-10, -126 + 180⟩).1 (3958 * Pi) = false ∧
    le (Distance ⟨10, -126⟩ ⟨-10, -126 + 180⟩).2 (6371 * Pi) = false := by
  decide!

/-- C10, at a failing input: on `float64`, `Distance({37, -173}, {-37, 7})`
is `(NaN, NaN)`, so neither distance is non-negative (`0 <= NaN` is false). -/
theorem Distance_nonneg_float :
    Distance ⟨37, -173⟩ ⟨-37, 7⟩ = (F64.nan, F64.nan) ∧
    le 0 (Distance ⟨37, -173⟩ ⟨-37, 7⟩).1 = false ∧
    le 0 (Distance ⟨37, -173⟩ ⟨-37, 7⟩).2 = false := by
  decide!

/-- C15, at a failing input: on `float64`, at `{10, -126}` and `{-10, 54}` the
haversine term `a` is `1.0000000000000002`, above `1`, in `Distance` (line 40)
and in `IntermediatePointTo` (line 62): `1 - a` is negative, `math.Sqrt(1 - a)`
is NaN, and the central angle is NaN in both functions. -/
theorem haversine_term_float :
    distanceA ⟨10, -126⟩ ⟨-10, 54⟩ = 1.0000000000000002 ∧
    lt 1 (distanceA ⟨10, -126⟩ ⟨-10, 54⟩) = true ∧
    lt (1 - distanceA ⟨10, -126⟩ ⟨-10, 54⟩) 0 = true ∧
    sqrt (1 - distanceA ⟨10, -126⟩ ⟨-10, 54⟩) = F64.nan ∧
    interA ⟨10, -126⟩ ⟨-10, 54⟩ = 1.0000000000000002 ∧
    lt 1 (interA ⟨10, -126⟩ ⟨-10, 54⟩) = true ∧
    sqrt (1 - interA ⟨10, -126⟩ ⟨-10, 54⟩) = F64.nan ∧
    dBetween ⟨10, -126⟩ ⟨-10, 54⟩ = F64.nan ∧
    2 * Atan2 (sqrt (distanceA ⟨10, -126⟩ ⟨-10, 54⟩))
      (sqrt (1 - distanceA ⟨10, -126⟩ ⟨-10, 54⟩)) = F64.nan := by
  decide!

/-- Counterexample to C2 as stated: on `float64`, from `{0, 0}` to
`{0, 179.99999}` the angle `dBetween` lies strictly between `0` and `Pi`, and
at `f = 0.25` the call returns `{0, 45.12452433174629}`, at
`5017.618172939134` km (`3117.2080879756854` miles) from `{0, 0}`, while
`0.25 * Distance` is `5003.771422223565` km (`3108.605758775839` miles): more
than `13` km and `8` miles apart. -/
theorem IntermediatePointTo_fraction_float :
    lt 0 (dBetween ⟨0, 0⟩ ⟨0, 179.99999⟩) = true ∧
    lt (dBetween ⟨0, 0⟩ ⟨0, 179.99999⟩) Pi = true ∧
    IntermediatePointTo ⟨0, 0⟩ ⟨0, 179.99999⟩ 0.25 = ⟨0, 45.12452433174629⟩ ∧
    Distance ⟨0, 0⟩ ⟨0, 45.12452433174629⟩ = (3117.2080879756854, 5017.618172939134) ∧
    0.25 * (Distance ⟨0, 0⟩ ⟨0, 179.99999⟩).1 = 3108.605758775839 ∧
    0.25 * (Distance ⟨0, 0⟩ ⟨0, 179.99999⟩).2 = 5003.771422223565 ∧
    lt 8 ((Distance ⟨0, 0⟩ ⟨0, 45.12452433174629⟩).1 -
      0.25 * (Distance ⟨0, 0⟩ ⟨0, 179.99999⟩).1) = true ∧
    lt 13 ((Distance ⟨0, 0⟩ ⟨0, 45.12452433174629⟩).2 -
      0.25 * (Distance ⟨0, 0⟩ ⟨0, 179.99999⟩).2) = true := by
  decide!

/-- Counterexample to C14 as stated: on `float64`, from `{0, 0}` to
`{0, 179.9999987}` the angle `dBetween` lies strictly between `0` and `Pi`,
and the distance from `{0, 0}` to the interpolated point is larger at
`f1 = 0.25` than at `f2 = 0.2500000001`, in miles and in kilometers. -/
theorem IntermediatePointTo_strictMono_float :
    lt 0 (dBetween ⟨0, 0⟩ ⟨0, 179.9999987⟩) = true ∧
    lt (dBetween ⟨0, 0⟩ ⟨0, 179.9999987⟩) Pi = true ∧
    lt 0.25 0.2500000001 = true ∧
    IntermediatePointTo ⟨0, 0⟩ ⟨0, 179.9999987⟩ 0.25 = ⟨0, 37.28295862979779⟩ ∧
    IntermediatePointTo ⟨0, 0⟩ ⟨0, 179.9999987⟩ 0.2500000001 = ⟨0, 37.28295849298878⟩ ∧
    Distance ⟨0, 0⟩ ⟨0, 37.28295862979779⟩ = (2575.5116958142785, 4145.675849932483) ∧
    Distance ⟨0, 0⟩ ⟨0, 37.28295849298878⟩ = (2575.511686363495, 4145.675834720017) ∧
    lt (Distance ⟨0, 0⟩ ⟨0, 37.28295849298878⟩).1
      (Distance ⟨0, 0⟩ ⟨0, 37.28295862979779⟩).1 = true ∧
    lt (Distance ⟨0, 0⟩ ⟨0, 37.28295849298878⟩).2
      (Distance ⟨0, 0⟩ ⟨0, 37.28295862979779⟩).2 = true := by
  decide!

/-- Counterexample to C19 as stated: on `float64`, from `{0, -180}` to
`{0, 90}` the divisor `math.Sin(dBetween)` is not zero, and at `f = 0` the call
returns `{0, -180}`: the longitude `-180` is outside `(-180, 180]`. -/
theorem IntermediatePointTo_lon_float :
    eq (Sin (dBetween ⟨0, -180⟩ ⟨0, 90⟩)) 0 = false ∧
    IntermediatePointTo ⟨0, -180⟩ ⟨0, 90⟩ 0 = ⟨0, -180⟩ ∧
    lt (-180) (IntermediatePointTo ⟨0, -180⟩ ⟨0, 90⟩ 0).Lon = false := by
  decide!

end Float64

end Haversine

end
